import Mathlib

/-!
# The `immutc` command: configuration resolution and start-up sequence

A shallow embedding of `cmd/immutc/command/cmd.go`.

* `setupFlags`, `initFlags`, `parseOptions`, `NewCmd` and `Immutc` are
  translated from the Go source, statement by statement.  The two pieces of
  global state they work on, the `viper` key/value store and the flag set of
  the command, are passed explicitly.
* The libraries the file is written against (`strconv`, `spf13/cast`,
  `spf13/pflag`, `spf13/viper`) are modelled as far as `cmd.go` uses them;
  each definition says which library function it stands for.
* The packages of this repository whose sources are not part of the
  development (`pkg/tc`, `pkg/client`, `cmd/helper`) are modelled from the
  specification; their definitions are marked so.
-/

namespace immutc

/-! ## strconv -/

/-- The two causes of a `strconv.NumError`. -/
inductive NumError where
  | ErrSyntax
  | ErrRange
  deriving DecidableEq, Repr

/-- Decimal digits of `n`, least significant first.  The first argument bounds
the number of digits; `n + 1` is always enough. -/
def natDigits : Nat → Nat → List Nat
  | 0, _ => []
  | fuel + 1, n => if n < 10 then [n] else (n % 10) :: natDigits fuel (n / 10)

/-- The character of a decimal digit. -/
def digitChar (d : Nat) : Char := Char.ofNat (48 + d)

/-- Decimal rendering of a natural number, most significant digit first. -/
def FormatUint (n : Nat) : List Char := (natDigits (n + 1) n).reverse.map digitChar

/-- Model of `strconv.FormatInt(n, 10)` (also `strconv.Itoa`). -/
def FormatInt : Int → String
  | Int.ofNat m => String.mk (FormatUint m)
  | Int.negSucc m => String.mk ('-' :: FormatUint (m + 1))

/-- Value of a digit character in a base up to 36, as the loop of
`strconv.ParseUint` reads it: `0`-`9`, and the letters of either case from 10. -/
def digitVal (c : Char) : Option Nat :=
  if 48 ≤ c.toNat ∧ c.toNat ≤ 57 then some (c.toNat - 48)
  else if 97 ≤ c.toNat ∧ c.toNat ≤ 122 then some (c.toNat - 97 + 10)
  else if 65 ≤ c.toNat ∧ c.toNat ≤ 90 then some (c.toNat - 65 + 10)
  else none

/-- The digit loop of `strconv.ParseUint(s, 0, 64)` in the base `base`:
underscores are skipped, a character that is no digit of the base is a syntax
error, and a value beyond 64 bits is a range error, whichever comes first. -/
def parseDigits (base : Nat) : List Char → Nat → Except NumError Nat
  | [], n => .ok n
  | c :: cs, n =>
    if c = '_' then parseDigits base cs n
    else
      match digitVal c with
      | none => .error .ErrSyntax
      | some d =>
        if base ≤ d then .error .ErrSyntax
        else if 2 ^ 64 ≤ n * base + d then .error .ErrRange
        else parseDigits base cs (n * base + d)

/-- The base a number is written in and its digits, as `strconv.ParseUint` with
base 0 reads them: `0b`, `0o` and `0x` (either case) before at least one more
character, a leading `0` for octal otherwise, decimal without a leading `0`. -/
def basePrefix (s : List Char) : Nat × List Char :=
  if s.head? = some '0' then
    if 3 ≤ s.length ∧ (s.get? 1 = some 'b' ∨ s.get? 1 = some 'B') then (2, s.drop 2)
    else if 3 ≤ s.length ∧ (s.get? 1 = some 'o' ∨ s.get? 1 = some 'O') then (8, s.drop 2)
    else if 3 ≤ s.length ∧ (s.get? 1 = some 'x' ∨ s.get? 1 = some 'X') then (16, s.drop 2)
    else (8, s.drop 1)
  else (10, s)

/-- What `underscoreOK` saw last: the beginning, a digit or base prefix, an
underscore, or something else. -/
inductive Saw where
  | start
  | digit
  | underscore
  | other
  deriving DecidableEq, Repr

/-- The loop of `underscoreOK` over the number proper. -/
def underscoreLoop (hex : Bool) : List Char → Saw → Bool
  | [], saw => saw ≠ .underscore
  | c :: cs, saw =>
    if (48 ≤ c.toNat ∧ c.toNat ≤ 57)
        ∨ (hex = true ∧ ((97 ≤ c.toNat ∧ c.toNat ≤ 102) ∨ (65 ≤ c.toNat ∧ c.toNat ≤ 70))) then
      underscoreLoop hex cs .digit
    else if c = '_' then
      if saw ≠ .digit then false else underscoreLoop hex cs .underscore
    else if saw = .underscore then false
    else underscoreLoop hex cs .other

/-- Model of `underscoreOK` of `strconv`: underscores only between digits or
between a base prefix and a digit. -/
def underscoreOK (s : List Char) : Bool :=
  let s := if s.head? = some '-' ∨ s.head? = some '+' then s.drop 1 else s
  if 2 ≤ s.length ∧ s.head? = some '0'
      ∧ (s.get? 1 = some 'b' ∨ s.get? 1 = some 'B' ∨ s.get? 1 = some 'o' ∨ s.get? 1 = some 'O'
        ∨ s.get? 1 = some 'x' ∨ s.get? 1 = some 'X') then
    underscoreLoop (decide (s.get? 1 = some 'x' ∨ s.get? 1 = some 'X')) (s.drop 2) .digit
  else underscoreLoop false s .start

/-- Model of `strconv.ParseUint(s, 0, 64)`: the value and the error.  As in Go
the value is 0 on a syntax error and the largest 64-bit value on a range
error. -/
def ParseUint (s : List Char) : Nat × Option NumError :=
  if s = [] then (0, some .ErrSyntax)
  else
    match parseDigits (basePrefix s).1 (basePrefix s).2 0 with
    | .error .ErrSyntax => (0, some .ErrSyntax)
    | .error .ErrRange => (2 ^ 64 - 1, some .ErrRange)
    | .ok n =>
      if '_' ∈ (basePrefix s).2 ∧ underscoreOK s = false then (0, some .ErrSyntax)
      else (n, none)

/-- Model of `strconv.ParseInt(s, 0, 64)`: the value and the error.  As in Go
the value is 0 on a syntax error and the nearest bound on a range error. -/
def ParseInt (s : String) : Int × Option NumError :=
  match s.data with
  | [] => (0, some .ErrSyntax)
  | c :: cs =>
    let neg : Bool := c = '-'
    let body := if c = '+' ∨ c = '-' then cs else c :: cs
    match ParseUint body with
    | (_, some .ErrSyntax) => (0, some .ErrSyntax)
    | (un, _) =>
      if neg = false ∧ 2 ^ 63 ≤ un then (2 ^ 63 - 1, some .ErrRange)
      else if neg = true ∧ 2 ^ 63 < un then (-(2 ^ 63), some .ErrRange)
      else (if neg then -(un : Int) else (un : Int), none)

/-- Model of `strconv.FormatBool`. -/
def FormatBool (b : Bool) : String := if b then "true" else "false"

/-- Model of `strconv.ParseBool`. -/
def ParseBool (s : String) : Bool × Option NumError :=
  if s = "1" ∨ s = "t" ∨ s = "T" ∨ s = "TRUE" ∨ s = "true" ∨ s = "True" then (true, none)
  else if s = "0" ∨ s = "f" ∨ s = "F" ∨ s = "FALSE" ∨ s = "false" ∨ s = "False" then
    (false, none)
  else (false, some .ErrSyntax)

/-! ## spf13/cast -/

/-- The dynamically typed values (`interface{}`) the configuration store holds:
strings, booleans, and integers of the Go types `int` (what `cast.ToInt`
returns) and `int64` (what a configuration file holds). -/
inductive Any where
  | str (s : String)
  | int (n : Int)
  | int64 (n : Int)
  | bool (b : Bool)
  deriving DecidableEq, Repr

/-- Model of `cast.ToString`. -/
def castToString : Any → String
  | .str s => s
  | .int n => FormatInt n
  | .int64 n => FormatInt n
  | .bool b => FormatBool b

/-- Model of `cast.ToInt`: conversion errors give 0. -/
def castToInt : Any → Int
  | .int n => n
  | .int64 n => n
  | .bool b => if b then 1 else 0
  | .str s =>
    match ParseInt s with
    | (n, none) => n
    | (_, some _) => 0

/-- Model of `cast.ToBool`: conversion errors give false.  Of the integers only
an `int` is converted; an `int64` is an error and so false. -/
def castToBool : Any → Bool
  | .bool b => b
  | .int n => n ≠ 0
  | .int64 _ => false
  | .str s =>
    match ParseBool s with
    | (b, none) => b
    | (_, some _) => false

/-! ## Errors -/

/-- The errors that travel through `cmd.go`. -/
inductive Error where
  /-- Raised by `FlagSet.Set`: no such flag. -/
  | noSuchFlag (name : String)
  /-- Raised by `FlagSet.Set`: invalid argument for the flag. -/
  | invalidArgument (value name : String) (cause : NumError)
  /-- Raised by `FlagSet.GetString`: flag accessed but not defined. -/
  | notDefined (name : String)
  /-- Raised by `FlagSet.GetString`: the flag has another type. -/
  | wrongType (want got : String)
  /-- An error of a collaborator (audit server, service manager, binding). -/
  | other (msg : String)
  deriving DecidableEq, Repr

/-! ## spf13/pflag -/

/-- The `pflag.Value` implementations `cmd.go` registers. -/
inductive FlagValue where
  | intValue (n : Int)
  | stringValue (s : String)
  | boolValue (b : Bool)
  deriving DecidableEq, Repr

/-- Model of `Value.Type()`. -/
def FlagValue.ValueType : FlagValue → String
  | .intValue _ => "int"
  | .stringValue _ => "string"
  | .boolValue _ => "bool"

/-- Model of `Value.String()`. -/
def FlagValue.ValueString : FlagValue → String
  | .intValue n => FormatInt n
  | .stringValue s => s
  | .boolValue b => FormatBool b

/-- Model of `Value.Set(s)`.  As in pflag, `intValue.Set` and `boolValue.Set`
store what the parser returned also when it reports an error. -/
def FlagValue.Set : FlagValue → String → FlagValue × Option NumError
  | .intValue _, s => (.intValue (ParseInt s).1, (ParseInt s).2)
  | .stringValue _, s => (.stringValue s, none)
  | .boolValue _, s => (.boolValue (ParseBool s).1, (ParseBool s).2)

/-- A `pflag.Flag`. -/
structure Flag where
  Name : String
  Shorthand : String
  Usage : String
  Value : FlagValue
  DefValue : String
  Changed : Bool
  deriving DecidableEq, Repr

/-- A `pflag.FlagSet`: its formal flags, in registration order. -/
abbrev FlagSet := List Flag

/-- Model of `FlagSet.Lookup`. -/
def FlagSet.Lookup (flags : FlagSet) (name : String) : Option Flag :=
  flags.find? (fun f => decide (f.Name = name))

/-- In-place update of the flag called `name` (the flag `Lookup` returns). -/
def FlagSet.update (name : String) (g : Flag → Flag) : FlagSet → FlagSet
  | [] => []
  | f :: fs => if f.Name = name then g f :: fs else f :: FlagSet.update name g fs

/-- Model of `FlagSet.Set(name, value)`.  The flag set is returned along with
the error because the value of the flag is written also when the conversion
fails; `Changed` is raised only on success. -/
def FlagSet.Set (flags : FlagSet) (name value : String) : FlagSet × Option Error :=
  match flags.Lookup name with
  | none => (flags, some (.noSuchFlag name))
  | some flag =>
    match flag.Value.Set value with
    | (v, some e) =>
      (FlagSet.update name (fun f => { f with Value := v }) flags,
        some (.invalidArgument value name e))
    | (v, none) =>
      (FlagSet.update name (fun f => { f with Value := v, Changed := true }) flags, none)

/-- Byte-wise comparison of two strings, the order of Go strings. -/
def ltChars : List Char → List Char → Bool
  | [], [] => false
  | [], _ :: _ => true
  | _ :: _, [] => false
  | a :: as, b :: bs =>
    if a.toNat < b.toNat then true
    else if b.toNat < a.toNat then false
    else ltChars as bs

/-- Insertion of a flag into a list sorted by name. -/
def insertFlag (f : Flag) : List Flag → List Flag
  | [] => [f]
  | g :: gs => if ltChars f.Name.data g.Name.data then f :: g :: gs else g :: insertFlag f gs

/-- Model of pflag's `sortFlags`: the flags in lexicographical order of their
names. -/
def sortFlags : List Flag → List Flag
  | [] => []
  | f :: fs => insertFlag f (sortFlags fs)

/-- Model of `FlagSet.VisitAll`: the flags in the order they are visited
(`SortFlags` is at its default, true). -/
def FlagSet.VisitAll (flags : FlagSet) : List Flag := sortFlags flags

/-- Model of `FlagSet.GetString(name)`. -/
def FlagSet.GetString (flags : FlagSet) (name : String) : Except Error String :=
  match flags.Lookup name with
  | none => .error (.notDefined name)
  | some flag =>
    if flag.Value.ValueType ≠ "string" then .error (.wrongType "string" flag.Value.ValueType)
    else .ok flag.Value.ValueString

/-- Registration of a flag (`FlagSet.AddFlag`). -/
def FlagSet.AddFlag (flags : FlagSet) (f : Flag) : FlagSet := flags ++ [f]

/-- Model of `FlagSet.IntP(name, shorthand, value, usage)`. -/
def FlagSet.IntP (flags : FlagSet) (name shorthand : String) (value : Int)
    (usage : String) : FlagSet :=
  flags.AddFlag
    { Name := name, Shorthand := shorthand, Usage := usage, Value := .intValue value,
      DefValue := FormatInt value, Changed := false }

/-- Model of `FlagSet.StringP(name, shorthand, value, usage)`. -/
def FlagSet.StringP (flags : FlagSet) (name shorthand value usage : String) : FlagSet :=
  flags.AddFlag
    { Name := name, Shorthand := shorthand, Usage := usage, Value := .stringValue value,
      DefValue := value, Changed := false }

/-- Model of `FlagSet.StringVar(p, name, value, usage)`; the variable `p` points
to is the storage of the flag and is read back through the flag. -/
def FlagSet.StringVar (flags : FlagSet) (name value usage : String) : FlagSet :=
  flags.StringP name "" value usage

/-- Model of `FlagSet.BoolP(name, shorthand, value, usage)`. -/
def FlagSet.BoolP (flags : FlagSet) (name shorthand : String) (value : Bool)
    (usage : String) : FlagSet :=
  flags.AddFlag
    { Name := name, Shorthand := shorthand, Usage := usage, Value := .boolValue value,
      DefValue := FormatBool value, Changed := false }

/-- Model of `FlagSet.String(name, value, usage)`, which pflag defines as
`StringP` without a shorthand (the Go name is the name of the string type
here). -/
def FlagSet.Str (flags : FlagSet) (name value usage : String) : FlagSet :=
  flags.StringP name "" value usage

/-- Model of the argument parser of pflag (`FlagSet.Parse`) on a command line
that is already split into `--name=value` pairs: every pair is a call of
`Set`, and the first error ends the parse. -/
def FlagSet.ParseFlags : FlagSet → List (String × String) → FlagSet × Option Error
  | flags, [] => (flags, none)
  | flags, (name, value) :: rest =>
    match flags.Set name value with
    | (fl, some e) => (fl, some e)
    | (fl, none) => FlagSet.ParseFlags fl rest

/-- The value the command line gives for `name`: that of its last occurrence. -/
def lastArg : List (String × String) → String → Option String
  | [], _ => none
  | (n, v) :: rest, name =>
    match lastArg rest name with
    | some w => some w
    | none => if n = name then some v else none

/-- A `cobra.Command`, as far as `cmd.go` uses it: its flag set. -/
structure Command where
  Flags : FlagSet
  deriving DecidableEq, Repr

/-! ## spf13/viper

The configuration store.  Of the layers of viper the command populates four:
the flags bound by `BindPFlags`, the environment (read for every key, as with
`AutomaticEnv`), the configuration file and the defaults; `viper.Set` and
remote key/value stores are not used.  Keys are
taken as written (viper folds them to lower case, and every key of this
command is lower case).  The flags bound to the store are the flags of the
command; the store reads their current state, which is passed to the getters.
-/

/-- The state of the configuration store. -/
structure Viper where
  /-- The keys bound to a flag of the command. -/
  pflags : List String
  /-- The variable the environment holds for a key, if any. -/
  env : String → Option String
  /-- The value the configuration file supplies for a key, if any. -/
  config : String → Option Any
  /-- The registered defaults. -/
  defaults : String → Option Any

/-- Model of `viper.BindPFlags(flags)`: binds every flag to the key of its
name.  Binding fails only for a nil flag, which a flag set never holds, so the
error is always nil. -/
def Viper.BindPFlags (v : Viper) (flags : FlagSet) : Viper × Option Error :=
  ({ v with pflags := flags.map (fun f => f.Name) ++ v.pflags }, none)

/-- Model of `viper.SetDefault(key, value)`. -/
def Viper.SetDefault (v : Viper) (key : String) (value : Any) : Viper :=
  { v with defaults := fun k => if k = key then some value else v.defaults k }

/-- Model of viper's `getEnv`: the variable of the key, where an empty variable
counts as unset (`AllowEmptyEnv` is off and `cmd.go` never turns it on). -/
def Viper.getEnv (v : Viper) (key : String) : Option String :=
  (v.env key).filter (fun e => decide (e ≠ ""))

/-- The value viper reads from a bound flag: its string, converted according to
the type of the flag. -/
def flagAny (f : Flag) : Any :=
  match f.Value with
  | .intValue _ => .int (castToInt (.str f.Value.ValueString))
  | .boolValue _ => .bool (castToBool (.str f.Value.ValueString))
  | .stringValue _ => .str f.Value.ValueString

/-- Model of viper's lookup (`find`): a bound flag that was changed, then the
environment, the configuration file, the defaults, and at last the value of a
bound flag that was not changed. -/
def Viper.find (v : Viper) (flags : FlagSet) (key : String) : Option Any :=
  let bound : Option Flag := if key ∈ v.pflags then flags.Lookup key else none
  match bound.filter (fun f => f.Changed) with
  | some f => some (flagAny f)
  | none =>
    match v.getEnv key with
    | some e => some (.str e)
    | none =>
      match v.config key with
      | some c => some c
      | none =>
        match v.defaults key with
        | some d => some d
        | none => bound.map flagAny

/-- Model of `viper.GetString(key)`. -/
def Viper.GetString (v : Viper) (flags : FlagSet) (key : String) : String :=
  match v.find flags key with
  | none => ""
  | some a => castToString a

/-- Model of `viper.GetInt(key)`. -/
def Viper.GetInt (v : Viper) (flags : FlagSet) (key : String) : Int :=
  match v.find flags key with
  | none => 0
  | some a => castToInt a

/-- Model of `viper.GetBool(key)`. -/
def Viper.GetBool (v : Viper) (flags : FlagSet) (key : String) : Bool :=
  match v.find flags key with
  | none => false
  | some a => castToBool a

/-- The getter `parseOptions` uses for a key whose flag has the type of `like`
(`GetInt`, `GetString` or `GetBool`), with its result as a value. -/
def Viper.GetAs (v : Viper) (flags : FlagSet) (like : FlagValue) (key : String) : Any :=
  match like with
  | .intValue _ => .int (v.GetInt flags key)
  | .stringValue _ => .str (v.GetString flags key)
  | .boolValue _ => .bool (v.GetBool flags key)

/-- The conversion the getter for a flag of the type of `like` applies. -/
def castAs (like : FlagValue) (a : Any) : Any :=
  match like with
  | .intValue _ => .int (castToInt a)
  | .stringValue _ => .str (castToString a)
  | .boolValue _ => .bool (castToBool a)

/-! ## pkg/tc and pkg/client: the Option Model -/

/-- Modelled from the spec: the mTLS sub-config (`client.MTLsOptions`, whose
source is not part of the development): server name, certificate, private key
and client CA bundle. -/
structure MTLsOptions where
  Servername : String
  Certificate : String
  Pkey : String
  ClientCAs : String
  deriving DecidableEq, Repr

/-- Modelled from the spec: the Option Model (`tc.Options`, whose source is not
part of the development): addresses and ports of the local service and of the
remote store, pid file, log file, mTLS flag, detached flag and the nested mTLS
sub-config, which is absent until it is attached. -/
structure Options where
  Address : String
  Port : Int
  ImmudbAddress : String
  ImmudbPort : Int
  Pidfile : String
  Logfile : String
  MTLs : Bool
  Detached : Bool
  MTLsOptions : Option MTLsOptions
  deriving DecidableEq, Repr

/-- The empty Option Model, the Go value `tc.Options` with no field set. -/
def Options.empty : Options :=
  { Address := "", Port := 0, ImmudbAddress := "", ImmudbPort := 0, Pidfile := "",
    Logfile := "", MTLs := false, Detached := false, MTLsOptions := none }

/-- Modelled from the spec: `tc.DefaultOptions()`, with the defaults of the flag
table of the specification and of the help text of the command. -/
def tc.DefaultOptions : Options :=
  { Address := "127.0.0.1", Port := 3325, ImmudbAddress := "127.0.0.1", ImmudbPort := 3322,
    Pidfile := "", Logfile := "", MTLs := false, Detached := false, MTLsOptions := none }

/-- Modelled from the spec: `tc.DefaultMTLsOptions()`, with the defaults of the
help text of the command. -/
def tc.DefaultMTLsOptions : MTLsOptions :=
  { Servername := "localhost",
    Certificate := "./tools/mtls/4_client/certs/localhost.cert.pem",
    Pkey := "./tools/mtls/4_client/private/localhost.key.pem",
    ClientCAs := "./tools/mtls/2_intermediate/certs/ca-chain.cert.pem" }

/-- Modelled from the spec: `client.DefaultMTLsOptions()`, the same defaults. -/
def client.DefaultMTLsOptions : MTLsOptions := tc.DefaultMTLsOptions

/-- Modelled from the spec: builder step `WithPort`. -/
def Options.WithPort (o : Options) (port : Int) : Options := { o with Port := port }

/-- Modelled from the spec: builder step `WithAddress`. -/
def Options.WithAddress (o : Options) (address : String) : Options :=
  { o with Address := address }

/-- Modelled from the spec: builder step `WithImmudbAddress`. -/
def Options.WithImmudbAddress (o : Options) (address : String) : Options :=
  { o with ImmudbAddress := address }

/-- Modelled from the spec: builder step `WithImmudbPort`. -/
def Options.WithImmudbPort (o : Options) (port : Int) : Options :=
  { o with ImmudbPort := port }

/-- Modelled from the spec: builder step `WithPidfile`. -/
def Options.WithPidfile (o : Options) (pidfile : String) : Options :=
  { o with Pidfile := pidfile }

/-- Modelled from the spec: builder step `WithLogfile`. -/
def Options.WithLogfile (o : Options) (logfile : String) : Options :=
  { o with Logfile := logfile }

/-- Modelled from the spec: builder step `WithMTLs`. -/
def Options.WithMTLs (o : Options) (mtls : Bool) : Options := { o with MTLs := mtls }

/-- Modelled from the spec: builder step `WithDetached`. -/
def Options.WithDetached (o : Options) (detached : Bool) : Options :=
  { o with Detached := detached }

/-- Modelled from the spec: builder step `WithServername` of the mTLS
sub-config. -/
def MTLsOptions.WithServername (o : MTLsOptions) (servername : String) : MTLsOptions :=
  { o with Servername := servername }

/-- Modelled from the spec: builder step `WithCertificate` of the mTLS
sub-config. -/
def MTLsOptions.WithCertificate (o : MTLsOptions) (certificate : String) : MTLsOptions :=
  { o with Certificate := certificate }

/-- Modelled from the spec: builder step `WithPkey` of the mTLS sub-config. -/
def MTLsOptions.WithPkey (o : MTLsOptions) (pkey : String) : MTLsOptions :=
  { o with Pkey := pkey }

/-- Modelled from the spec: builder step `WithClientCAs` of the mTLS
sub-config. -/
def MTLsOptions.WithClientCAs (o : MTLsOptions) (clientcas : String) : MTLsOptions :=
  { o with ClientCAs := clientcas }

/-- Modelled from the spec: the name of the detached flag (`c.DetachedFlag` of
`cmd/helper`). -/
def c.DetachedFlag : String := "detached"

/-- Modelled from the spec: the shorthand of the detached flag
(`c.DetachedShortFlag` of `cmd/helper`). -/
def c.DetachedShortFlag : String := "d"

/-! ## cmd.go -/

/-- The function `setupFlags` of `cmd.go`: registers the thirteen flags of the
command with the defaults of the given Option Model and mTLS options. -/
def setupFlags (cmd : Command) (options : Options) (mtlsOptions : MTLsOptions) : Command :=
  let fl := cmd.Flags
  let fl := fl.IntP "port" "p" options.Port "immutc port number"
  let fl := fl.StringP "address" "a" options.Address "immutc host address"
  let fl := fl.IntP "immudb-port" "j" options.ImmudbPort "immudb port number"
  let fl := fl.StringP "immudb-address" "k" options.ImmudbAddress "immudb host address"
  let fl := fl.StringVar "config" ""
    "config file (default path are configs or $HOME. Default filename is immutc.toml)"
  let fl := fl.Str "pidfile" options.Pidfile "pid path with filename. E.g. /var/run/immutc.pid"
  let fl := fl.Str "logfile" options.Logfile
    "log path with filename. E.g. /tmp/immutc/immutc.log"
  let fl := fl.BoolP "mtls" "m" options.MTLs "enable mutual tls"
  let fl := fl.BoolP c.DetachedFlag c.DetachedShortFlag options.Detached
    "run immutc in background"
  let fl := fl.Str "servername" mtlsOptions.Servername
    "used to verify the hostname on the returned certificates"
  let fl := fl.Str "certificate" mtlsOptions.Certificate "server certificate file path"
  let fl := fl.Str "pkey" mtlsOptions.Pkey "server private key path"
  let fl := fl.Str "clientcas" mtlsOptions.ClientCAs
    "clients certificates list. Aka certificate authority"
  { Flags := fl }

/-- The state `initFlags` works on: the flag set, the configuration store and
the captured error variable `err`. -/
structure InitState where
  flags : FlagSet
  viper : Viper
  err : Option Error

/-- The closure `initFlags` passes to `VisitAll`, applied to the flag `f`.  The
assignment `err = flags.Set(...)` writes the captured variable on success as
well as on failure, and `return` leaves the closure only. -/
def initFlags.visit (exclude : String → Bool) (st : InitState) (f : Flag) : InitState :=
  if exclude f.Name then st
  else
    let vp := st.viper.SetDefault f.Name (.str f.DefValue)
    let v := vp.GetString st.flags f.Name
    if v ≠ f.DefValue then
      match st.flags.Set f.Name v with
      | (fl, some e) => { flags := fl, viper := vp, err := some e }
      | (fl, none) => { flags := fl, viper := vp, err := none }
    else { flags := st.flags, viper := vp, err := st.err }

/-- The function `initFlags` of `cmd.go`.  The map `exclude` is read as a
function (false for a missing key, and everywhere for the nil map). -/
def initFlags (flags : FlagSet) (exclude : String → Bool) (v : Viper) : InitState :=
  match v.BindPFlags flags with
  | (vp, some err) => { flags := flags, viper := vp, err := some err }
  | (vp, none) =>
    flags.VisitAll.foldl (initFlags.visit exclude) { flags := flags, viper := vp, err := none }

/-- The result of the override the visit of `f` attempts in the state `st`
(the error of its call of `flags.Set`), or nothing when it attempts none. -/
def overrideAttempt (exclude : String → Bool) (st : InitState) (f : Flag) :
    Option (Option Error) :=
  if exclude f.Name then none
  else
    let vp := st.viper.SetDefault f.Name (.str f.DefValue)
    let v := vp.GetString st.flags f.Name
    if v ≠ f.DefValue then some (st.flags.Set f.Name v).2 else none

/-- The results of the overrides attempted while the flags `fs` are visited
from the state `st`, in the order of the visit. -/
def overrideResults (exclude : String → Bool) : InitState → List Flag → List (Option Error)
  | _, [] => []
  | st, f :: fs =>
    (overrideAttempt exclude st f).toList ++
      overrideResults exclude (initFlags.visit exclude st f) fs

/-- The part of `NewCmd` that prepares the flags: `setupFlags` with the default
options, then `initFlags` with the nil exclusion map. -/
def NewCmd (v : Viper) : InitState :=
  let cmd := setupFlags { Flags := [] } tc.DefaultOptions tc.DefaultMTLsOptions
  initFlags cmd.Flags (fun _ => false) v

/-- What `parseOptions` leaves: the config file name written to `o.CfgFn`, the
returned options and the returned error. -/
structure ParseResult where
  CfgFn : String
  options : Options
  err : Option Error
  deriving DecidableEq, Repr

/-- The function `parseOptions` of `cmd.go`. -/
def parseOptions (cmd : Command) (vp : Viper) : ParseResult :=
  let port := vp.GetInt cmd.Flags "port"
  let address := vp.GetString cmd.Flags "address"
  let immudbport := vp.GetInt cmd.Flags "immudb-port"
  let immudbAddress := vp.GetString cmd.Flags "immudb-address"
  match cmd.Flags.GetString "config" with
  | .error err => { CfgFn := "", options := Options.empty, err := some err }
  | .ok cfgFn =>
    let pidfile := vp.GetString cmd.Flags "pidfile"
    let logfile := vp.GetString cmd.Flags "logfile"
    let mtls := vp.GetBool cmd.Flags "mtls"
    let detached := vp.GetBool cmd.Flags "detached"
    let servername := vp.GetString cmd.Flags "servername"
    let certificate := vp.GetString cmd.Flags "certificate"
    let pkey := vp.GetString cmd.Flags "pkey"
    let clientcas := vp.GetString cmd.Flags "clientcas"
    let options := tc.DefaultOptions
      |>.WithPort port
      |>.WithAddress address
      |>.WithImmudbAddress immudbAddress
      |>.WithImmudbPort immudbport
      |>.WithPidfile pidfile
      |>.WithLogfile logfile
      |>.WithMTLs mtls
      |>.WithDetached detached
    let options :=
      if mtls then
        { options with
          MTLsOptions := some (client.DefaultMTLsOptions
            |>.WithServername servername
            |>.WithCertificate certificate
            |>.WithPkey pkey
            |>.WithClientCAs clientcas) }
      else options
    { CfgFn := cfgFn, options := options, err := none }

/-- The collaborators of `Immutc`: the constructor of the audit server
(`tc.NewServer`), the constructor of the OS service (`daem.New`) and its run
(`d.Run`).  The types of the server and of the daemon are left open. -/
structure Collaborators (σ δ : Type) where
  NewServer : Options → Except Error σ
  New : String → String → String → Except Error δ
  Run : δ → σ → Except Error String

/-- The steps of `Immutc` that reach outside the process. -/
inductive Event where
  /-- The call `tc.NewServer(options)`. -/
  | NewServer (options : Options)
  /-- Modelled from the spec: the call `c.Detached()` of `cmd/helper`, the
  detach step; the caller goes on once it is complete. -/
  | Detached
  /-- The call `daem.New(name, description, dependency)`. -/
  | DaemNew (name description dependency : String)
  /-- The call `d.Run(service)`. -/
  | Run
  /-- Modelled from the spec: the call `c.QuitToStdErr(err)` of `cmd/helper`,
  which prints the error and ends the process. -/
  | QuitToStdErr (err : Error)
  deriving DecidableEq, Repr

/-- How a call of `Immutc` ends: it returns its error result, or the process
was ended by `QuitToStdErr`. -/
inductive Outcome where
  | returned (err : Option Error)
  | exited (err : Error)
  deriving DecidableEq, Repr

/-- A run of `Immutc`: the steps taken, in order, and the outcome. -/
structure RunResult where
  trace : List Event
  outcome : Outcome
  deriving DecidableEq, Repr

/-- The function `Immutc` of `cmd.go`. -/
def Immutc {σ δ : Type} (w : Collaborators σ δ) (cmd : Command) (vp : Viper) : RunResult :=
  match (parseOptions cmd vp).err with
  | some err => { trace := [], outcome := .returned (some err) }
  | none =>
    let options := (parseOptions cmd vp).options
    match w.NewServer options with
    | .error err => { trace := [.NewServer options], outcome := .returned (some err) }
    | .ok immutcServer =>
      let t := [Event.NewServer options] ++ (if options.Detached then [Event.Detached] else [])
      match w.New "immutc" "immutc" "immutc" with
      | .error err =>
        { trace := t ++ [.DaemNew "immutc" "immutc" "immutc", .QuitToStdErr err],
          outcome := .exited err }
      | .ok d =>
        match w.Run d immutcServer with
        | .error err =>
          { trace := t ++ [.DaemNew "immutc" "immutc" "immutc", .Run],
            outcome := .returned (some err) }
        | .ok _ =>
          { trace := t ++ [.DaemNew "immutc" "immutc" "immutc", .Run],
            outcome := .returned none }

/-- Whether some step satisfying `p` is followed, later in the trace, by a step
satisfying `q`. -/
def occursBefore (p q : Event → Bool) : List Event → Bool
  | [] => false
  | e :: t => (p e && t.any q) || occursBefore p q t

/-- Recognises the construction of the audit server. -/
def Event.isNewServer : Event → Bool
  | .NewServer _ => true
  | _ => false

/-- Recognises the detach step. -/
def Event.isDetached : Event → Bool
  | .Detached => true
  | _ => false

/-- Recognises the creation of the OS service. -/
def Event.isDaemNew : Event → Bool
  | .DaemNew _ _ _ => true
  | _ => false

/-- Whether a key belongs to the mTLS sub-config. -/
def isMTLsKey (key : String) : Bool :=
  decide (key = "servername" ∨ key = "certificate" ∨ key = "pkey" ∨ key = "clientcas")

/-- The value `parseOptions` produces for the key of a flag of the command: the
field of the Option Model the key is written to (for an mTLS key the field of
the sub-config, when that is attached), and for `config` the file name written
to `o.CfgFn`. -/
def ParseResult.valueOf (r : ParseResult) (key : String) : Option Any :=
  if key = "port" then some (.int r.options.Port)
  else if key = "address" then some (.str r.options.Address)
  else if key = "immudb-port" then some (.int r.options.ImmudbPort)
  else if key = "immudb-address" then some (.str r.options.ImmudbAddress)
  else if key = "config" then some (.str r.CfgFn)
  else if key = "pidfile" then some (.str r.options.Pidfile)
  else if key = "logfile" then some (.str r.options.Logfile)
  else if key = "mtls" then some (.bool r.options.MTLs)
  else if key = "detached" then some (.bool r.options.Detached)
  else if key = "servername" then r.options.MTLsOptions.map (fun m => .str m.Servername)
  else if key = "certificate" then r.options.MTLsOptions.map (fun m => .str m.Certificate)
  else if key = "pkey" then r.options.MTLsOptions.map (fun m => .str m.Pkey)
  else if key = "clientcas" then r.options.MTLsOptions.map (fun m => .str m.ClientCAs)
  else none

/-! ## Concrete inputs -/

/-- A store with no bound flag, no environment, no configuration file and no
default. -/
def emptyViper : Viper :=
  { pflags := [], env := fun _ => none, config := fun _ => none, defaults := fun _ => none }

/-- The command line of the scenario of the specification. -/
def scenarioArgs : List (String × String) :=
  [("port", "4000"), ("immudb-address", "10.0.0.5"), ("mtls", "true"), ("servername", "foo"),
    ("certificate", "/c"), ("pkey", "/k"), ("clientcas", "/ca")]

/-- A store whose environment supplies the listed values and which holds
nothing else. -/
def envViper (l : List (String × String)) : Viper :=
  { emptyViper with env := fun k => (l.find? (fun p => decide (p.1 = k))).map (fun p => p.2) }

/-- The exclusion map with the single key `name`. -/
def excludeOnly (name : String) : String → Bool := fun k => decide (k = name)

/-- The command with the flags `setupFlags` registers from the default
options. -/
def defaultCmd : Command := setupFlags { Flags := [] } tc.DefaultOptions tc.DefaultMTLsOptions

/-- Collaborators that all succeed. -/
def okWorld : Collaborators Unit Unit :=
  { NewServer := fun _ => .ok (), New := fun _ _ _ => .ok (), Run := fun _ _ => .ok "" }

/-- Collaborators whose audit server cannot be constructed. -/
def failWorld : Collaborators Unit Unit :=
  { okWorld with NewServer := fun _ => .error (.other "invalid remote address") }

/-- The flag `port` as `setupFlags` registers it from the default options. -/
def portFlag : Flag :=
  { Name := "port", Shorthand := "p", Usage := "immutc port number", Value := .intValue 3325,
    DefValue := "3325", Changed := false }

/-- The flag `config` as `setupFlags` registers it. -/
def configFlag : Flag :=
  { Name := "config", Shorthand := "",
    Usage := "config file (default path are configs or $HOME. Default filename is immutc.toml)",
    Value := .stringValue "", DefValue := "", Changed := false }

/-- The command as `NewCmd` leaves it on an empty store, after the command
line `args` was parsed. -/
def cmdWith (args : List (String × String)) : Command :=
  { Flags := (FlagSet.ParseFlags (NewCmd emptyViper).flags args).1 }

/-! ## strconv: formatting and parsing agree -/

theorem digitVal_digitChar (d : Nat) (h : d < 10) : digitVal (digitChar d) = some d := by
  interval_cases d <;> decide

theorem digitChar_ne_sign (d : Nat) (h : d < 10) :
    digitChar d ≠ '-' ∧ digitChar d ≠ '+' ∧ digitChar d ≠ '_' ∧ (digitChar d = '0' → d = 0) := by
  interval_cases d <;> decide

theorem parseDigits_append (base : Nat) (xs ys : List Char) (acc : Nat) :
    parseDigits base (xs ++ ys) acc
      = (parseDigits base xs acc).bind (parseDigits base ys) := by
  induction xs generalizing acc with
  | nil => rfl
  | cons c cs ih =>
    simp only [List.cons_append, parseDigits]
    split
    · exact ih acc
    · cases digitVal c with
      | none => rfl
      | some d =>
        simp only
        split
        · rfl
        · split
          · rfl
          · exact ih (acc * base + d)

theorem natDigits_lt (fuel n : Nat) : ∀ d ∈ natDigits fuel n, d < 10 := by
  induction fuel generalizing n with
  | zero => simp [natDigits]
  | succ k ih =>
    intro d hd
    unfold natDigits at hd
    split at hd
    · simp at hd; omega
    · rcases List.mem_cons.mp hd with h | h
      · omega
      · exact ih _ d h

/-- Reading the digits of a number that fits in 64 bits, most significant
first, gives its value. -/
theorem parseDigits_reverse (l : List Nat) (hl : ∀ d ∈ l, d < 10) (acc : Nat)
    (hb : acc * 10 ^ l.length + l.foldr (fun d r => d + 10 * r) 0 < 2 ^ 64) :
    parseDigits 10 (l.reverse.map digitChar) acc
      = .ok (acc * 10 ^ l.length + l.foldr (fun d r => d + 10 * r) 0) := by
  induction l generalizing acc with
  | nil => simp [parseDigits]
  | cons d ds ih =>
    have hd : d < 10 := hl d (List.mem_cons_self _ _)
    have hds : ∀ x ∈ ds, x < 10 := fun x hx => hl x (List.mem_cons_of_mem _ hx)
    simp only [List.length_cons, List.foldr_cons] at hb
    have hpow : acc * 10 ^ (ds.length + 1) = acc * 10 ^ ds.length * 10 := by ring
    have hb2 : (acc * 10 ^ ds.length + ds.foldr (fun d r => d + 10 * r) 0) * 10 + d < 2 ^ 64 := by
      rw [hpow] at hb
      omega
    have hb1 : acc * 10 ^ ds.length + ds.foldr (fun d r => d + 10 * r) 0 < 2 ^ 64 := by omega
    simp only [List.reverse_cons, List.map_append, List.map_cons, List.map_nil,
      parseDigits_append, ih hds acc hb1, Except.bind, parseDigits, digitVal_digitChar d hd,
      List.length_cons, List.foldr_cons, (digitChar_ne_sign d hd).2.2.1, if_false]
    rw [if_neg (by omega), if_neg (by omega)]
    congr 1
    rw [hpow]
    omega

theorem natDigits_value (fuel n : Nat) (h : n < fuel) :
    (natDigits fuel n).foldr (fun d r => d + 10 * r) 0 = n := by
  induction fuel generalizing n with
  | zero => omega
  | succ k ih =>
    unfold natDigits
    split
    · simp
    · have := ih (n / 10) (by omega)
      simp only [List.foldr_cons, this]
      omega

theorem natDigits_reverse_head (fuel n : Nat) (h : n < fuel) :
    ∃ d ds, (natDigits fuel n).reverse = d :: ds ∧ d < 10 ∧ (d = 0 → ds = [] ∧ n = 0) := by
  induction fuel generalizing n with
  | zero => omega
  | succ k ih =>
    unfold natDigits
    split
    · exact ⟨n, [], by simp, by omega, fun h0 => ⟨rfl, h0⟩⟩
    · obtain ⟨d, ds, hrev, hd, h0⟩ := ih (n / 10) (by omega)
      refine ⟨d, ds ++ [n % 10], by simp [hrev], hd, fun hz => ?_⟩
      have := (h0 hz).2
      omega

theorem parseDigits_FormatUint (n : Nat) (hn : n < 2 ^ 64) :
    parseDigits 10 (FormatUint n) 0 = .ok n := by
  unfold FormatUint
  have hv := natDigits_value (n + 1) n (Nat.lt_succ_self n)
  rw [parseDigits_reverse _ (natDigits_lt _ _) 0 (by rw [hv]; omega), hv]
  simp

theorem FormatUint_head (n : Nat) :
    ∃ d rest, FormatUint n = digitChar d :: rest ∧ d < 10 ∧ (d = 0 → rest = [] ∧ n = 0) := by
  obtain ⟨d, ds, hrev, hd, h0⟩ := natDigits_reverse_head (n + 1) n (Nat.lt_succ_self n)
  refine ⟨d, ds.map digitChar, by simp [FormatUint, hrev], hd, fun hz => ?_⟩
  simp [(h0 hz).1, (h0 hz).2]

theorem FormatUint_no_underscore (n : Nat) : '_' ∉ FormatUint n := by
  unfold FormatUint
  intro h
  obtain ⟨d, hd, he⟩ := List.mem_map.mp h
  exact (digitChar_ne_sign d (natDigits_lt _ _ d (List.mem_reverse.mp hd))).2.2.1 he

theorem ParseUint_FormatUint (n : Nat) (hn : n < 2 ^ 64) :
    ParseUint (FormatUint n) = (n, none) := by
  obtain ⟨d, rest, hf, hd, h0⟩ := FormatUint_head n
  have hp := parseDigits_FormatUint n hn
  have hu := FormatUint_no_underscore n
  by_cases hz : d = 0
  · obtain ⟨hr, hn0⟩ := h0 hz
    subst hz hr hn0
    rw [hf]
    decide
  · have hne : digitChar d ≠ '0' := fun hh => hz ((digitChar_ne_sign d hd).2.2.2 hh)
    have hbase : basePrefix (FormatUint n) = (10, FormatUint n) := by
      rw [hf]
      simp [basePrefix, hne]
    unfold ParseUint
    rw [hbase]
    simp only [hp]
    rw [if_neg (by rw [hf]; simp), if_neg (fun hh => hu hh.1)]

/-- Parsing the decimal rendering of a 64-bit integer gives the integer back. -/
theorem ParseInt_FormatInt (n : Int) (hlo : -(2 ^ 63) ≤ n) (hhi : n < 2 ^ 63) :
    ParseInt (FormatInt n) = (n, none) := by
  cases n with
  | ofNat m =>
    obtain ⟨d, rest, hf, hd, -⟩ := FormatUint_head m
    have hm : m < 2 ^ 63 := by
      have : (m : Int) < 2 ^ 63 := hhi
      omega
    have hu := ParseUint_FormatUint m (by omega)
    rw [hf] at hu
    simp only [FormatInt, ParseInt, hf]
    simp [(digitChar_ne_sign d hd).1, (digitChar_ne_sign d hd).2.1, hu]
    omega
  | negSucc m =>
    have hm : m + 1 ≤ 2 ^ 63 := by
      have : -(2 ^ 63 : Int) ≤ Int.negSucc m := hlo
      rw [Int.negSucc_eq] at this
      omega
    have hu := ParseUint_FormatUint (m + 1) (by omega)
    simp only [FormatInt, ParseInt]
    simp [hu, Int.negSucc_eq]
    omega

/-- A successful parse gives a 64-bit integer. -/
theorem ParseInt_range (s : String) (n : Int) (h : ParseInt s = (n, none)) :
    -(2 ^ 63) ≤ n ∧ n < 2 ^ 63 := by
  unfold ParseInt at h
  split at h
  · simp at h
  · rename_i c cs _
    simp only at h
    split at h
    · simp at h
    · rename_i un _ _
      split at h
      · simp at h
      · split at h
        · simp at h
        · rename_i h1 h2
          simp only [Prod.mk.injEq, and_true] at h
          by_cases hneg : c = '-'
          · simp [hneg] at h h1 h2
            omega
          · simp [hneg] at h h1 h2
            omega

theorem castToInt_FormatInt (s : String) (n : Int) (h : ParseInt s = (n, none)) :
    castToInt (.str (FormatInt n)) = n := by
  have hr := ParseInt_range s n h
  simp [castToInt, ParseInt_FormatInt n hr.1 hr.2]

theorem ParseBool_FormatBool (b : Bool) : ParseBool (FormatBool b) = (b, none) := by
  cases b <;> decide

/-! ## pflag: lookup after an update -/

theorem lookup_update_ne (k name : String) (g : Flag → Flag) (hg : ∀ f, (g f).Name = f.Name)
    (fl : FlagSet) (h : name ≠ k) :
    FlagSet.Lookup (FlagSet.update k g fl) name = FlagSet.Lookup fl name := by
  induction fl with
  | nil => rfl
  | cons f fs ih =>
    unfold FlagSet.update
    by_cases hf : f.Name = k
    · have hkn : ¬ k = name := fun hh => h hh.symm
      simp [hf, FlagSet.Lookup, List.find?_cons, hg, hkn]
    · simp only [hf, if_false]
      unfold FlagSet.Lookup at ih ⊢
      simp only [List.find?_cons, ih]

theorem lookup_update_eq (k : String) (g : Flag → Flag) (hg : ∀ f, (g f).Name = f.Name)
    (fl : FlagSet) :
    FlagSet.Lookup (FlagSet.update k g fl) k = (FlagSet.Lookup fl k).map g := by
  induction fl with
  | nil => rfl
  | cons f fs ih =>
    unfold FlagSet.update
    by_cases hf : f.Name = k
    · simp [hf, FlagSet.Lookup, List.find?_cons, hg]
    · simp only [hf, if_false]
      unfold FlagSet.Lookup at ih ⊢
      simp only [List.find?_cons, hf, decide_False, ih]

theorem Set_lookup_ne (fl : FlagSet) (k v name : String) (h : name ≠ k) :
    FlagSet.Lookup (fl.Set k v).1 name = FlagSet.Lookup fl name := by
  unfold FlagSet.Set
  split
  · rfl
  · split
    · refine lookup_update_ne k name _ ?_ fl h
      exact fun _ => rfl
    · refine lookup_update_ne k name _ ?_ fl h
      exact fun _ => rfl

/-- The flag `Set` writes: its value is what the conversion returned, and it is
marked as changed when the conversion succeeded. -/
theorem Set_lookup_eq (fl : FlagSet) (k v : String) (f0 : Flag)
    (h : FlagSet.Lookup fl k = some f0) :
    FlagSet.Lookup (fl.Set k v).1 k
        = some { f0 with
            Value := (f0.Value.Set v).1
            Changed := if (f0.Value.Set v).2 = none then true else f0.Changed }
      ∧ ((fl.Set k v).2 = none ↔ (f0.Value.Set v).2 = none) := by
  unfold FlagSet.Set
  rw [h]
  simp only
  split
  · rename_i x e he
    have hl := lookup_update_eq k (fun f => { f with Value := x }) (fun _ => rfl) fl
    rw [h] at hl
    simp only at hl ⊢
    rw [hl]
    simp [he]
  · rename_i x he
    have hl := lookup_update_eq k (fun f => { f with Value := x, Changed := true })
      (fun _ => rfl) fl
    rw [h] at hl
    simp only at hl ⊢
    rw [hl]
    simp [he]

theorem Set_set (x : FlagValue) (a b : String) : (x.Set a).1.Set b = x.Set b := by
  cases x <;> rfl

theorem Set_ValueType (x : FlagValue) (a : String) : (x.Set a).1.ValueType = x.ValueType := by
  cases x <;> rfl

/-! ## initFlags: one visit -/

/-- The visit of one flag, with the two branches of the call of `Set` joined. -/
theorem visit_eq (exclude : String → Bool) (st : InitState) (f : Flag) :
    initFlags.visit exclude st f =
      if exclude f.Name then st
      else if (st.viper.SetDefault f.Name (.str f.DefValue)).GetString st.flags f.Name
          ≠ f.DefValue then
        { flags := (st.flags.Set f.Name
            ((st.viper.SetDefault f.Name (.str f.DefValue)).GetString st.flags f.Name)).1,
          viper := st.viper.SetDefault f.Name (.str f.DefValue),
          err := (st.flags.Set f.Name
            ((st.viper.SetDefault f.Name (.str f.DefValue)).GetString st.flags f.Name)).2 }
      else
        { flags := st.flags, viper := st.viper.SetDefault f.Name (.str f.DefValue),
          err := st.err } := by
  unfold initFlags.visit
  by_cases hx : exclude f.Name = true
  · simp [hx]
  · simp only [hx]
    by_cases hv : (st.viper.SetDefault f.Name (.str f.DefValue)).GetString st.flags f.Name
        ≠ f.DefValue
    · simp only [if_false, if_pos hv, Bool.false_eq_true]
      split
      · rename_i h; simp [h]
      · rename_i h; simp [h]
    · simp only [if_false, if_neg hv, Bool.false_eq_true]

theorem visit_lookup_ne (exclude : String → Bool) (st : InitState) (f : Flag) (name : String)
    (h : name ≠ f.Name) :
    FlagSet.Lookup (initFlags.visit exclude st f).flags name = FlagSet.Lookup st.flags name := by
  rw [visit_eq]
  split
  · rfl
  · split
    · exact Set_lookup_ne _ _ _ _ h
    · rfl

theorem visit_viper (exclude : String → Bool) (st : InitState) (f : Flag) :
    (initFlags.visit exclude st f).viper.env = st.viper.env
      ∧ (initFlags.visit exclude st f).viper.config = st.viper.config
      ∧ (initFlags.visit exclude st f).viper.pflags = st.viper.pflags := by
  rw [visit_eq]
  split
  · exact ⟨rfl, rfl, rfl⟩
  · split <;> exact ⟨rfl, rfl, rfl⟩

theorem foldl_visit_viper (exclude : String → Bool) (l : List Flag) (st : InitState) :
    (l.foldl (initFlags.visit exclude) st).viper.env = st.viper.env
      ∧ (l.foldl (initFlags.visit exclude) st).viper.config = st.viper.config
      ∧ (l.foldl (initFlags.visit exclude) st).viper.pflags = st.viper.pflags := by
  induction l generalizing st with
  | nil => exact ⟨rfl, rfl, rfl⟩
  | cons f fs ih =>
    obtain ⟨h1, h2, h3⟩ := ih (initFlags.visit exclude st f)
    obtain ⟨g1, g2, g3⟩ := visit_viper exclude st f
    exact ⟨h1.trans g1, h2.trans g2, h3.trans g3⟩

/-- Visiting flags none of which is called `name` leaves the flag called
`name` as it is. -/
theorem foldl_visit_lookup (exclude : String → Bool) (name : String) (l : List Flag)
    (hl : ∀ f ∈ l, exclude f.Name = true ∨ f.Name ≠ name) (st : InitState) :
    FlagSet.Lookup (l.foldl (initFlags.visit exclude) st).flags name
      = FlagSet.Lookup st.flags name := by
  induction l generalizing st with
  | nil => rfl
  | cons f fs ih =>
    rw [List.foldl_cons, ih (fun g hg => hl g (List.mem_cons_of_mem _ hg))]
    rcases hl f (List.mem_cons_self _ _) with hx | hne
    · rw [visit_eq, if_pos hx]
    · exact visit_lookup_ne exclude st f name (Ne.symm hne)

/-! ## initFlags: the returned error -/

theorem visit_err (exclude : String → Bool) (st : InitState) (f : Flag) :
    (initFlags.visit exclude st f).err = (overrideAttempt exclude st f).getD st.err := by
  rw [visit_eq]
  unfold overrideAttempt
  by_cases hx : exclude f.Name = true
  · simp [hx]
  · by_cases hv : (st.viper.SetDefault f.Name (.str f.DefValue)).GetString st.flags f.Name
        ≠ f.DefValue
    · simp only [hx, if_false, if_pos hv, Bool.false_eq_true, Option.getD_some]
    · simp only [hx, if_false, if_neg hv, Bool.false_eq_true, Option.getD_none]

theorem foldl_visit_err (exclude : String → Bool) (l : List Flag) (st : InitState) :
    (l.foldl (initFlags.visit exclude) st).err
      = ((overrideResults exclude st l).getLast?).getD st.err := by
  induction l generalizing st with
  | nil => rfl
  | cons f fs ih =>
    rw [List.foldl_cons, ih, overrideResults, List.getLast?_append, visit_err]
    cases (overrideResults exclude (initFlags.visit exclude st f) fs).getLast? with
    | some r => simp
    | none => cases overrideAttempt exclude st f <;> simp

/-! ## parseOptions -/

theorem GetString_ok_iff (fl : FlagSet) (n : String) :
    (∃ c, fl.GetString n = .ok c)
      ↔ ∃ f, FlagSet.Lookup fl n = some f ∧ f.Value.ValueType = "string" := by
  unfold FlagSet.GetString
  cases h : FlagSet.Lookup fl n with
  | none => simp
  | some f =>
    by_cases ht : f.Value.ValueType = "string"
    · simp [ht]
    · simp [ht]

theorem Set_readable (fl : FlagSet) (k v n : String)
    (h : ∃ f, FlagSet.Lookup fl n = some f ∧ f.Value.ValueType = "string") :
    ∃ f, FlagSet.Lookup (fl.Set k v).1 n = some f ∧ f.Value.ValueType = "string" := by
  obtain ⟨f, hf, ht⟩ := h
  by_cases hk : n = k
  · subst hk
    exact ⟨_, (Set_lookup_eq fl n v f hf).1, by simpa [Set_ValueType] using ht⟩
  · exact ⟨f, by rw [Set_lookup_ne fl k v n hk]; exact hf, ht⟩

theorem foldl_visit_readable (exclude : String → Bool) (n : String) (l : List Flag)
    (st : InitState)
    (h : ∃ f, FlagSet.Lookup st.flags n = some f ∧ f.Value.ValueType = "string") :
    ∃ f, FlagSet.Lookup (l.foldl (initFlags.visit exclude) st).flags n = some f
      ∧ f.Value.ValueType = "string" := by
  induction l generalizing st with
  | nil => exact h
  | cons g gs ih =>
    rw [List.foldl_cons]
    apply ih
    rw [visit_eq]
    split
    · exact h
    · split
      · exact Set_readable _ _ _ _ h
      · exact h

theorem ParseFlags_readable (n : String) (args : List (String × String)) (fl : FlagSet)
    (h : ∃ f, FlagSet.Lookup fl n = some f ∧ f.Value.ValueType = "string") :
    ∃ f, FlagSet.Lookup (FlagSet.ParseFlags fl args).1 n = some f
      ∧ f.Value.ValueType = "string" := by
  induction args generalizing fl with
  | nil => exact h
  | cons a rest ih =>
    obtain ⟨k, v⟩ := a
    have hs := Set_readable fl k v n h
    unfold FlagSet.ParseFlags
    cases hr : fl.Set k v with
    | mk fl1 e =>
      rw [hr] at hs
      cases e with
      | some e => exact hs
      | none => exact ih fl1 hs

/-- With a readable config flag `parseOptions` returns no error and these
options. -/
theorem parseOptions_ok (cmd : Command) (vp : Viper) (cfg : String)
    (h : cmd.Flags.GetString "config" = .ok cfg) :
    parseOptions cmd vp =
      { CfgFn := cfg
        options :=
          { Address := vp.GetString cmd.Flags "address"
            Port := vp.GetInt cmd.Flags "port"
            ImmudbAddress := vp.GetString cmd.Flags "immudb-address"
            ImmudbPort := vp.GetInt cmd.Flags "immudb-port"
            Pidfile := vp.GetString cmd.Flags "pidfile"
            Logfile := vp.GetString cmd.Flags "logfile"
            MTLs := vp.GetBool cmd.Flags "mtls"
            Detached := vp.GetBool cmd.Flags "detached"
            MTLsOptions :=
              if vp.GetBool cmd.Flags "mtls" = true then
                some
                  { Servername := vp.GetString cmd.Flags "servername"
                    Certificate := vp.GetString cmd.Flags "certificate"
                    Pkey := vp.GetString cmd.Flags "pkey"
                    ClientCAs := vp.GetString cmd.Flags "clientcas" }
              else none }
        err := none } := by
  unfold parseOptions
  rw [h]
  cases hm : vp.GetBool cmd.Flags "mtls" <;> rfl

/-! ## VisitAll visits every flag once -/

theorem insertFlag_perm (f : Flag) (l : List Flag) : (insertFlag f l).Perm (f :: l) := by
  induction l with
  | nil => exact List.Perm.refl _
  | cons g gs ih =>
    unfold insertFlag
    split
    · exact List.Perm.refl _
    · exact (List.Perm.cons g ih).trans (List.Perm.swap f g gs)

theorem sortFlags_perm (l : List Flag) : (sortFlags l).Perm l := by
  induction l with
  | nil => exact List.Perm.refl _
  | cons f fs ih =>
    unfold sortFlags
    exact (insertFlag_perm f (sortFlags fs)).trans (List.Perm.cons f ih)

theorem mem_VisitAll (flags : FlagSet) (f : Flag) : f ∈ flags.VisitAll ↔ f ∈ flags :=
  (sortFlags_perm flags).mem_iff

theorem VisitAll_names_nodup (flags : FlagSet) (h : (flags.map (fun f => f.Name)).Nodup) :
    (flags.VisitAll.map (fun f => f.Name)).Nodup :=
  ((sortFlags_perm flags).map _).nodup_iff.mpr h

theorem lookup_of_mem (flags : FlagSet) (h : (flags.map (fun f => f.Name)).Nodup) (F : Flag)
    (hF : F ∈ flags) : FlagSet.Lookup flags F.Name = some F := by
  induction flags with
  | nil => simp at hF
  | cons g gs ih =>
    simp only [List.map_cons, List.nodup_cons] at h
    unfold FlagSet.Lookup
    rcases List.mem_cons.mp hF with hg | hg
    · subst hg
      simp [List.find?_cons]
    · have hne : g.Name ≠ F.Name := by
        intro hh
        exact h.1 (hh ▸ List.mem_map_of_mem (fun f => f.Name) hg)
      simp only [List.find?_cons, hne, decide_False]
      exact ih h.2 hg

/-! ## viper: what a lookup depends on -/

theorem find_congr (v1 v2 : Viper) (fl1 fl2 : FlagSet) (k : String)
    (hp : v1.pflags = v2.pflags) (he : v1.env k = v2.env k) (hc : v1.config k = v2.config k)
    (hd : v1.defaults k = v2.defaults k) (hl : FlagSet.Lookup fl1 k = FlagSet.Lookup fl2 k) :
    v1.find fl1 k = v2.find fl2 k := by
  unfold Viper.find Viper.getEnv
  rw [hp, he, hc, hd, hl]

/-- A key whose flag is not changed and for which neither the environment nor
the configuration file holds a value reads as its registered default. -/
theorem find_default (v : Viper) (fl : FlagSet) (k : String) (d : Any)
    (hch : ∀ g, FlagSet.Lookup fl k = some g → g.Changed = false) (he : v.env k = none)
    (hc : v.config k = none) (hd : v.defaults k = some d) : v.find fl k = some d := by
  unfold Viper.find
  have hb : (if k ∈ v.pflags then FlagSet.Lookup fl k else none).filter (fun f => f.Changed)
      = none := by
    by_cases hk : k ∈ v.pflags
    · simp only [hk, if_true]
      cases hl : FlagSet.Lookup fl k with
      | none => rfl
      | some g => simp [Option.filter, hch g hl]
    · simp [hk]
  have hge : v.getEnv k = none := by simp [Viper.getEnv, he]
  simp only [hb, hge, hc, hd]

/-! ## initFlags: flags whose store value is the default -/

theorem foldl_visit_keeps (exclude : String → Bool) (F : Flag) (v0 : Viper) (fl0 : FlagSet)
    (hv : (v0.SetDefault F.Name (.str F.DefValue)).GetString fl0 F.Name = F.DefValue)
    (l : List Flag) (hl : ∀ g ∈ l, g.Name = F.Name → g = F) (st : InitState)
    (h1 : FlagSet.Lookup st.flags F.Name = FlagSet.Lookup fl0 F.Name)
    (h2 : st.viper.pflags = v0.pflags) (h3 : st.viper.env = v0.env)
    (h4 : st.viper.config = v0.config) :
    FlagSet.Lookup (l.foldl (initFlags.visit exclude) st).flags F.Name
      = FlagSet.Lookup fl0 F.Name := by
  induction l generalizing st with
  | nil => exact h1
  | cons g gs ih =>
    rw [List.foldl_cons]
    obtain ⟨e1, e2, e3⟩ := visit_viper exclude st g
    refine ih (fun x hx => hl x (List.mem_cons_of_mem _ hx)) _ ?_ (e3.trans h2) (e1.trans h3)
      (e2.trans h4)
    by_cases hg : g.Name = F.Name
    · have hgF : g = F := hl g (List.mem_cons_self _ _) hg
      subst hgF
      rw [visit_eq]
      split
      · exact h1
      · have hget : (st.viper.SetDefault g.Name (.str g.DefValue)).GetString st.flags g.Name
            = g.DefValue := by
          refine Eq.trans ?_ hv
          unfold Viper.GetString
          rw [find_congr (st.viper.SetDefault g.Name (.str g.DefValue))
            (v0.SetDefault g.Name (.str g.DefValue)) st.flags fl0 g.Name h2
            (by simp [Viper.SetDefault, h3]) (by simp [Viper.SetDefault, h4])
            (by simp [Viper.SetDefault]) h1]
        rw [if_neg (by simpa using hget)]
        exact h1
    · rw [visit_lookup_ne exclude st g F.Name (Ne.symm hg)]
      exact h1

/-! ## initFlags: a store without overrides -/

theorem visit_no_override (exclude : String → Bool) (st : InitState) (f : Flag)
    (henv : st.viper.env f.Name = none) (hcfg : st.viper.config f.Name = none)
    (hch : ∀ g ∈ st.flags, g.Changed = false) :
    initFlags.visit exclude st f =
      if exclude f.Name then st
      else { flags := st.flags, viper := st.viper.SetDefault f.Name (.str f.DefValue),
             err := st.err } := by
  rw [visit_eq]
  have hget : (st.viper.SetDefault f.Name (.str f.DefValue)).GetString st.flags f.Name
      = f.DefValue := by
    unfold Viper.GetString
    rw [find_default (st.viper.SetDefault f.Name (.str f.DefValue)) st.flags f.Name
      (.str f.DefValue)
      (fun g hg => hch g (List.mem_of_find?_eq_some hg)) henv hcfg (by simp [Viper.SetDefault])]
    rfl
  by_cases hx : exclude f.Name = true
  · simp only [hx, if_true]
  · simp only [hx, if_false, Bool.false_eq_true]
    rw [if_neg (not_not.mpr hget)]

theorem foldl_no_override (exclude : String → Bool) (l : List Flag) (st : InitState)
    (henv : ∀ k, st.viper.env k = none) (hcfg : ∀ k, st.viper.config k = none)
    (hch : ∀ g ∈ st.flags, g.Changed = false) :
    (l.foldl (initFlags.visit exclude) st).flags = st.flags
      ∧ (l.foldl (initFlags.visit exclude) st).err = st.err
      ∧ ∀ k d,
          (st.viper.defaults k = some (.str d)
              ∨ ∃ f ∈ l, f.Name = k ∧ exclude f.Name = false ∧ f.DefValue = d) →
          (∀ g ∈ l, g.Name = k → exclude g.Name = false → g.DefValue = d) →
          (l.foldl (initFlags.visit exclude) st).viper.defaults k = some (.str d) := by
  induction l generalizing st with
  | nil =>
    refine ⟨rfl, rfl, fun k d h _ => ?_⟩
    rcases h with h | ⟨f, hf, _⟩
    · exact h
    · simp at hf
  | cons f fs ih =>
    rw [List.foldl_cons]
    have hvis := visit_no_override exclude st f (henv _) (hcfg _) hch
    have hflags : (initFlags.visit exclude st f).flags = st.flags := by
      rw [hvis]; split <;> rfl
    have herr : (initFlags.visit exclude st f).err = st.err := by
      rw [hvis]; split <;> rfl
    obtain ⟨e1, e2, -⟩ := visit_viper exclude st f
    obtain ⟨i1, i2, i3⟩ := ih (initFlags.visit exclude st f)
      (fun k => by rw [e1]; exact henv k) (fun k => by rw [e2]; exact hcfg k)
      (by rw [hflags]; exact hch)
    refine ⟨i1.trans hflags, i2.trans herr, fun k d h hall => ?_⟩
    apply i3 k d ?_ (fun g hg => hall g (List.mem_cons_of_mem _ hg))
    by_cases hx : exclude f.Name = true
    · rw [hvis, if_pos hx]
      rcases h with h | ⟨f1, hf1, hn, hex, hd⟩
      · exact Or.inl h
      · rcases List.mem_cons.mp hf1 with hf | hf
        · subst hf
          rw [hx] at hex
          exact absurd hex (by simp)
        · exact Or.inr ⟨f1, hf, hn, hex, hd⟩
    · rw [hvis, if_neg hx]
      by_cases hk : f.Name = k
      · left
        have := hall f (List.mem_cons_self _ _) hk (by simpa using hx)
        simp [Viper.SetDefault, hk, this]
      · rcases h with h | ⟨f1, hf1, hn, hex, hd⟩
        · left
          have hk2 : ¬ k = f.Name := fun hh => hk hh.symm
          simpa [Viper.SetDefault, hk2] using h
        · rcases List.mem_cons.mp hf1 with hf | hf
          · subst hf
            exact absurd hn hk
          · exact Or.inr ⟨f1, hf, hn, hex, hd⟩

/-- On a store without environment and configuration file, `initFlags` with the
nil exclusion map leaves unchanged flags as they are, returns nil, and every
key of a flag reads as the default of the flag. -/
theorem initFlags_no_override (flags : FlagSet) (vp : Viper)
    (henv : ∀ k, vp.env k = none) (hcfg : ∀ k, vp.config k = none)
    (hch : ∀ g ∈ flags, g.Changed = false) (hnd : (flags.map (fun f => f.Name)).Nodup) :
    (initFlags flags (fun _ => false) vp).flags = flags
      ∧ (initFlags flags (fun _ => false) vp).err = none
      ∧ ∀ k d, (∃ f ∈ flags, f.Name = k ∧ f.DefValue = d) →
          (initFlags flags (fun _ => false) vp).viper.find flags k = some (.str d) := by
  unfold initFlags
  simp only [Viper.BindPFlags]
  obtain ⟨h1, h2, h3⟩ := foldl_no_override (fun _ => false) flags.VisitAll
    { flags := flags
      viper := { vp with pflags := flags.map (fun f => f.Name) ++ vp.pflags }
      err := none } henv hcfg hch
  obtain ⟨e1, e2, -⟩ := foldl_visit_viper (fun _ => false) flags.VisitAll
    { flags := flags
      viper := { vp with pflags := flags.map (fun f => f.Name) ++ vp.pflags }
      err := none }
  refine ⟨h1, h2, fun k d hk => ?_⟩
  obtain ⟨f, hf, hn, hd⟩ := hk
  apply find_default
  · intro g hg
    exact hch g (List.mem_of_find?_eq_some hg)
  · rw [e1]; exact henv k
  · rw [e2]; exact hcfg k
  · apply h3 k d (Or.inr ⟨f, (mem_VisitAll flags f).mpr hf, hn, rfl, hd⟩)
    intro g hg hgn _
    have hgf : g = f :=
      List.inj_on_of_nodup_map hnd ((mem_VisitAll flags g).mp hg) hf (hgn.trans hn.symm)
    rw [hgf]; exact hd

/-! ## Resolution: environment and command line -/

theorem find_env (v : Viper) (fl : FlagSet) (k V : String)
    (hch : ∀ g, FlagSet.Lookup fl k = some g → g.Changed = false) (he : v.env k = some V)
    (hV : V ≠ "") : v.find fl k = some (.str V) := by
  unfold Viper.find
  have hb : (if k ∈ v.pflags then FlagSet.Lookup fl k else none).filter (fun f => f.Changed)
      = none := by
    by_cases hk : k ∈ v.pflags
    · simp only [hk, if_true]
      cases hl : FlagSet.Lookup fl k with
      | none => rfl
      | some g => simp [Option.filter, hch g hl]
    · simp [hk]
  have hge : v.getEnv k = some V := by simp [Viper.getEnv, he, Option.filter, hV]
  simp only [hb, hge]

theorem find_changed (v : Viper) (fl : FlagSet) (k : String) (f : Flag) (hk : k ∈ v.pflags)
    (hl : FlagSet.Lookup fl k = some f) (hc : f.Changed = true) :
    v.find fl k = some (flagAny f) := by
  unfold Viper.find
  simp [hk, hl, Option.filter, hc]

theorem GetAs_of_find (v : Viper) (fl : FlagSet) (like : FlagValue) (k : String) (a : Any)
    (h : v.find fl k = some a) : v.GetAs fl like k = castAs like a := by
  cases like <;> simp [Viper.GetAs, Viper.GetInt, Viper.GetString, Viper.GetBool, castAs, h]

/-- A flag that holds what `W` converts to reads, through the store, as `W`
converted to the type of the flag. -/
theorem castAs_flagAny (x : FlagValue) (W : String) (f : Flag) (hf : f.Value = (x.Set W).1)
    (hok : (x.Set W).2 = none) : castAs x (flagAny f) = castAs x (.str W) := by
  cases x with
  | intValue m =>
    simp only [FlagValue.Set] at hf hok
    have hp : ParseInt W = ((ParseInt W).1, none) := by rw [← hok]
    have hr := castToInt_FormatInt W _ hp
    simp only [flagAny, hf, FlagValue.ValueString, castAs, hr]
    simp only [castToInt]
    rw [hp]
  | stringValue m =>
    simp only [FlagValue.Set] at hf
    simp [flagAny, hf, FlagValue.ValueString, castAs, castToString]
  | boolValue m =>
    simp only [FlagValue.Set] at hf hok
    have hp : ParseBool W = ((ParseBool W).1, none) := by rw [← hok]
    simp only [flagAny, hf, FlagValue.ValueString, castAs]
    simp only [castToBool, ParseBool_FormatBool]
    rw [hp]

/-- The flag the command-line parser leaves under a name: the flag as it was
when its name is not on the command line, and otherwise the flag with the
converted value of its last occurrence, marked as changed. -/
theorem ParseFlags_lookup (n : String) (args : List (String × String)) (fl : FlagSet)
    (f0 : Flag) (hl : FlagSet.Lookup fl n = some f0)
    (hok : (FlagSet.ParseFlags fl args).2 = none) :
    FlagSet.Lookup (FlagSet.ParseFlags fl args).1 n
        = some (match lastArg args n with
          | none => f0
          | some W => { f0 with Value := (f0.Value.Set W).1, Changed := true })
      ∧ ∀ W, lastArg args n = some W → (f0.Value.Set W).2 = none := by
  induction args generalizing fl f0 with
  | nil => exact ⟨by simpa [FlagSet.ParseFlags, lastArg] using hl, by simp [lastArg]⟩
  | cons a rest ih =>
    obtain ⟨k, v⟩ := a
    unfold FlagSet.ParseFlags at hok ⊢
    cases hr : fl.Set k v with
    | mk fl1 e =>
      rw [hr] at hok
      cases e with
      | some e => simp at hok
      | none =>
        simp only at hok ⊢
        have hfl1 : fl1 = (fl.Set k v).1 := by rw [hr]
        have he1 : (fl.Set k v).2 = none := by rw [hr]
        by_cases hk : k = n
        · subst hk
          obtain ⟨hs1, hs2⟩ := Set_lookup_eq fl k v f0 hl
          have hv : (f0.Value.Set v).2 = none := hs2.mp he1
          rw [← hfl1, hv] at hs1
          obtain ⟨i1, i2⟩ := ih fl1 _ hs1 hok
          simp only [lastArg]
          cases hla : lastArg rest k with
          | none =>
            rw [hla] at i1
            refine ⟨by simpa using i1, fun W1 hW1 => ?_⟩
            simp only [if_true, Option.some.injEq] at hW1
            rw [← hW1]; exact hv
          | some W =>
            rw [hla] at i1
            simp only [Set_set] at i1
            refine ⟨by simpa using i1, fun W1 hW1 => ?_⟩
            have := i2 W hla
            simp only [Set_set] at this
            simp only [Option.some.injEq] at hW1
            rw [← hW1]; exact this
        · have hl1 : FlagSet.Lookup fl1 n = some f0 := by
            rw [hfl1, Set_lookup_ne fl k v n (fun hh => hk hh.symm)]; exact hl
          obtain ⟨i1, i2⟩ := ih fl1 f0 hl1 hok
          simp only [lastArg, hk, if_false]
          cases hla : lastArg rest n with
          | none => rw [hla] at i1; exact ⟨i1, by simp⟩
          | some W =>
            rw [hla] at i1
            exact ⟨i1, fun W1 hW1 => by
              simp only [Option.some.injEq] at hW1
              rw [← hW1]; exact i2 W hla⟩

/-- The flag `initFlags` leaves under the name of a flag for which the
environment supplies `V`. -/
theorem initFlags_env_flag (flags : FlagSet) (exclude : String → Bool) (vp : Viper) (F : Flag)
    (V : String) (hnd : (flags.map (fun f => f.Name)).Nodup) (hF : F ∈ flags)
    (hch : F.Changed = false) (henv : vp.env F.Name = some V) (hV0 : V ≠ "") :
    FlagSet.Lookup (initFlags flags exclude vp).flags F.Name
      = some (if exclude F.Name = true ∨ V = F.DefValue then F
          else { F with
            Value := (F.Value.Set V).1
            Changed := if (F.Value.Set V).2 = none then true else false }) := by
  unfold initFlags
  simp only [Viper.BindPFlags]
  obtain ⟨s, t, hst⟩ := List.append_of_mem ((mem_VisitAll flags F).mpr hF)
  have hnd2 := VisitAll_names_nodup flags hnd
  rw [hst] at hnd2
  simp only [List.map_append, List.map_cons, List.nodup_append, List.nodup_cons] at hnd2
  obtain ⟨-, ⟨hFt, -⟩, hdis⟩ := hnd2
  have hs : ∀ f ∈ s, exclude f.Name = true ∨ f.Name ≠ F.Name := fun f hf => Or.inr (by
    intro hh
    exact hdis (List.mem_map_of_mem (fun f => f.Name) hf) (hh ▸ List.mem_cons_self _ _))
  have ht : ∀ f ∈ t, exclude f.Name = true ∨ f.Name ≠ F.Name := fun f hf => Or.inr (by
    intro hh
    exact hFt (hh ▸ List.mem_map_of_mem (fun f => f.Name) hf))
  rw [hst, List.foldl_append, List.foldl_cons, foldl_visit_lookup exclude F.Name t ht]
  generalize hst1 : List.foldl (initFlags.visit exclude)
    { flags := flags
      viper := { vp with pflags := flags.map (fun f => f.Name) ++ vp.pflags }
      err := none } s = st1
  have hL1 : FlagSet.Lookup st1.flags F.Name = some F := by
    rw [← hst1, foldl_visit_lookup exclude F.Name s hs]
    exact lookup_of_mem flags hnd F hF
  have henv1 : st1.viper.env F.Name = some V := by
    rw [← hst1, (foldl_visit_viper exclude s _).1]; exact henv
  rw [visit_eq]
  by_cases hx : exclude F.Name = true
  · simp only [hx, if_true, true_or]
    exact hL1
  · have hget : (st1.viper.SetDefault F.Name (.str F.DefValue)).GetString st1.flags F.Name
        = V := by
      unfold Viper.GetString
      rw [find_env (st1.viper.SetDefault F.Name (.str F.DefValue)) st1.flags F.Name V
        (fun g hg => by rw [hL1] at hg; cases hg; exact hch) henv1 hV0]
      rfl
    simp only [hx, if_false, hget, false_or, Bool.false_eq_true]
    by_cases hV : V = F.DefValue
    · simp only [hV, ne_eq, not_true_eq_false, if_false, if_true]
      exact hL1
    · simp only [ne_eq, hV, not_false_eq_true, if_true, if_false]
      rw [(Set_lookup_eq st1.flags F.Name V F hL1).1, hch]

theorem initFlags_viper (flags : FlagSet) (exclude : String → Bool) (vp : Viper) :
    (initFlags flags exclude vp).viper.env = vp.env
      ∧ (initFlags flags exclude vp).viper.config = vp.config
      ∧ (initFlags flags exclude vp).viper.pflags = flags.map (fun f => f.Name) ++ vp.pflags := by
  unfold initFlags
  simp only [Viper.BindPFlags]
  exact foldl_visit_viper exclude _ _

/-- The flag the command line leaves under the name of a flag for which the
environment supplies `V`, after `initFlags`. -/
theorem resolution_flag (flags : FlagSet) (exclude : String → Bool) (vp : Viper) (F : Flag)
    (V : String) (args : List (String × String))
    (hnd : (flags.map (fun f => f.Name)).Nodup) (hF : F ∈ flags) (hch : F.Changed = false)
    (henv : vp.env F.Name = some V) (hV0 : V ≠ "")
    (hcli : (FlagSet.ParseFlags (initFlags flags exclude vp).flags args).2 = none) :
    FlagSet.Lookup (FlagSet.ParseFlags (initFlags flags exclude vp).flags args).1 F.Name
        = some (match lastArg args F.Name with
          | none =>
            if exclude F.Name = true ∨ V = F.DefValue then F
            else { F with
              Value := (F.Value.Set V).1
              Changed := if (F.Value.Set V).2 = none then true else false }
          | some W => { F with Value := (F.Value.Set W).1, Changed := true })
      ∧ ∀ W, lastArg args F.Name = some W → (F.Value.Set W).2 = none := by
  have hA := initFlags_env_flag flags exclude vp F V hnd hF hch henv hV0
  obtain ⟨hB1, hB2⟩ := ParseFlags_lookup F.Name args _ _ hA hcli
  have hset : ∀ W, (if exclude F.Name = true ∨ V = F.DefValue then F
      else { F with
        Value := (F.Value.Set V).1
        Changed := if (F.Value.Set V).2 = none then true else false }).Value.Set W
      = F.Value.Set W := by
    intro W
    split
    · rfl
    · exact Set_set F.Value V W
  refine ⟨?_, fun W hW => by rw [← hset W]; exact hB2 W hW⟩
  rw [hB1]
  cases hla : lastArg args F.Name with
  | none => rfl
  | some W =>
    simp only [hset W]
    split <;> rfl

/-- What the getter of `parseOptions` returns for the key of a flag for which
the environment supplies `V`: the command-line value when there is one, `V`
otherwise, converted to the type of the flag. -/
theorem GetAs_env_or_cli (flags : FlagSet) (exclude : String → Bool) (vp : Viper) (F : Flag)
    (V : String) (args : List (String × String))
    (hnd : (flags.map (fun f => f.Name)).Nodup) (hF : F ∈ flags) (hch : F.Changed = false)
    (henv : vp.env F.Name = some V) (hV0 : V ≠ "")
    (hcli : (FlagSet.ParseFlags (initFlags flags exclude vp).flags args).2 = none) :
    (initFlags flags exclude vp).viper.GetAs
        (FlagSet.ParseFlags (initFlags flags exclude vp).flags args).1 F.Value F.Name
      = castAs F.Value (.str ((lastArg args F.Name).getD V)) := by
  obtain ⟨v1, -, v3⟩ := initFlags_viper flags exclude vp
  have henv1 : (initFlags flags exclude vp).viper.env F.Name = some V := by rw [v1]; exact henv
  have hbound : F.Name ∈ (initFlags flags exclude vp).viper.pflags := by
    rw [v3]
    exact List.mem_append_left _ (List.mem_map_of_mem (fun f => f.Name) hF)
  obtain ⟨hB1, hB2⟩ := resolution_flag flags exclude vp F V args hnd hF hch henv hV0 hcli
  cases hla : lastArg args F.Name with
  | some W =>
    rw [hla] at hB1
    rw [GetAs_of_find _ _ _ _ _ (find_changed _ _ _ _ hbound hB1 rfl)]
    exact castAs_flagAny F.Value W _ rfl (hB2 W hla)
  | none =>
    rw [hla] at hB1
    simp only [Option.getD_none]
    by_cases hcond : exclude F.Name = true ∨ V = F.DefValue
    · simp only [if_pos hcond] at hB1
      rw [GetAs_of_find _ _ _ _ _ (find_env _ _ _ V
        (fun g hg => by rw [hB1] at hg; cases hg; exact hch) henv1 hV0)]
    · simp only [if_neg hcond] at hB1
      by_cases hok : (F.Value.Set V).2 = none
      · simp only [hok, if_true] at hB1
        rw [GetAs_of_find _ _ _ _ _ (find_changed _ _ _ _ hbound hB1 rfl)]
        exact castAs_flagAny F.Value V _ rfl hok
      · simp only [hok, if_false] at hB1
        rw [GetAs_of_find _ _ _ _ _ (find_env _ _ _ V
          (fun g hg => by rw [hB1] at hg; cases hg; rfl) henv1 hV0)]

/-- The config flag of the command can be read whatever `initFlags` and the
command line did. -/
theorem config_readable (exclude : String → Bool) (vp : Viper)
    (args : List (String × String)) :
    ∃ cfg, FlagSet.GetString
      (FlagSet.ParseFlags (initFlags defaultCmd.Flags exclude vp).flags args).1 "config"
      = .ok cfg := by
  have h0 : ∃ f, FlagSet.Lookup defaultCmd.Flags "config" = some f
      ∧ f.Value.ValueType = "string" := ⟨_, rfl, rfl⟩
  have h1 : ∃ f, FlagSet.Lookup (initFlags defaultCmd.Flags exclude vp).flags "config" = some f
      ∧ f.Value.ValueType = "string" := by
    unfold initFlags
    simp only [Viper.BindPFlags]
    exact foldl_visit_readable exclude "config" _ _ h0
  exact (GetString_ok_iff _ _).mpr (ParseFlags_readable "config" args _ h1)

set_option maxRecDepth 100000 in
/-- The flags of the command: none is changed, each holds its default, and
each key has the type of the getter `parseOptions` reads it with. -/
theorem defaultCmd_flag (f : Flag) (hf : f ∈ defaultCmd.Flags) :
    f.Changed = false ∧ f.Value.ValueString = f.DefValue
      ∧ ((f.Name = "port" ∧ f.Value.ValueType = "int")
        ∨ (f.Name = "immudb-port" ∧ f.Value.ValueType = "int")
        ∨ (f.Name = "mtls" ∧ f.Value.ValueType = "bool")
        ∨ (f.Name = "detached" ∧ f.Value.ValueType = "bool")
        ∨ (f.Name = "address" ∧ f.Value.ValueType = "string")
        ∨ (f.Name = "immudb-address" ∧ f.Value.ValueType = "string")
        ∨ (f.Name = "pidfile" ∧ f.Value.ValueType = "string")
        ∨ (f.Name = "logfile" ∧ f.Value.ValueType = "string")
        ∨ (f.Name = "servername" ∧ f.Value.ValueType = "string")
        ∨ (f.Name = "certificate" ∧ f.Value.ValueType = "string")
        ∨ (f.Name = "pkey" ∧ f.Value.ValueType = "string")
        ∨ (f.Name = "clientcas" ∧ f.Value.ValueType = "string")
        ∨ (f.Name = "config" ∧ f.Value.ValueType = "string")) := by
  have h : ∀ g ∈ defaultCmd.Flags,
      g.Changed = false ∧ g.Value.ValueString = g.DefValue
        ∧ ((g.Name = "port" ∧ g.Value.ValueType = "int")
          ∨ (g.Name = "immudb-port" ∧ g.Value.ValueType = "int")
          ∨ (g.Name = "mtls" ∧ g.Value.ValueType = "bool")
          ∨ (g.Name = "detached" ∧ g.Value.ValueType = "bool")
          ∨ (g.Name = "address" ∧ g.Value.ValueType = "string")
          ∨ (g.Name = "immudb-address" ∧ g.Value.ValueType = "string")
          ∨ (g.Name = "pidfile" ∧ g.Value.ValueType = "string")
          ∨ (g.Name = "logfile" ∧ g.Value.ValueType = "string")
          ∨ (g.Name = "servername" ∧ g.Value.ValueType = "string")
          ∨ (g.Name = "certificate" ∧ g.Value.ValueType = "string")
          ∨ (g.Name = "pkey" ∧ g.Value.ValueType = "string")
          ∨ (g.Name = "clientcas" ∧ g.Value.ValueType = "string")
          ∨ (g.Name = "config" ∧ g.Value.ValueType = "string")) := by
    decide
  exact h f hf

theorem ValueType_int (x : FlagValue) (h : x.ValueType = "int") : ∃ n, x = .intValue n := by
  cases x with
  | intValue n => exact ⟨n, rfl⟩
  | stringValue a => simp [FlagValue.ValueType] at h
  | boolValue b => simp [FlagValue.ValueType] at h

theorem ValueType_bool (x : FlagValue) (h : x.ValueType = "bool") : ∃ b, x = .boolValue b := by
  cases x with
  | intValue n => simp [FlagValue.ValueType] at h
  | stringValue a => simp [FlagValue.ValueType] at h
  | boolValue b => exact ⟨b, rfl⟩

theorem ValueType_string (x : FlagValue) (h : x.ValueType = "string") :
    ∃ a, x = .stringValue a := by
  cases x with
  | intValue n => simp [FlagValue.ValueType] at h
  | stringValue a => exact ⟨a, rfl⟩
  | boolValue b => simp [FlagValue.ValueType] at h

/-! ## Claims -/

/-- C6: `initFlags` leaves the flag of every name in the exclusion set as it
was, whatever the configuration store holds for its key. -/
theorem initFlags_excluded_unchanged (flags : FlagSet) (exclude : String → Bool) (vp : Viper)
    (name : String) (h : exclude name = true) :
    FlagSet.Lookup (initFlags flags exclude vp).flags name = FlagSet.Lookup flags name := by
  unfold initFlags
  simp only [Viper.BindPFlags]
  refine foldl_visit_lookup exclude name _ (fun f _ => ?_) _
  by_cases hn : f.Name = name
  · exact Or.inl (hn ▸ h)
  · exact Or.inr hn

/-- C6, at a concrete input: with `port` excluded and the environment supplying
4000 for it, the flag `port` is as `setupFlags` registered it. -/
theorem initFlags_excluded_unchanged_witness :
    excludeOnly "port" "port" = true
      ∧ FlagSet.Lookup
          (initFlags defaultCmd.Flags (excludeOnly "port") (envViper [("port", "4000")])).flags
          "port"
        = FlagSet.Lookup defaultCmd.Flags "port" :=
  ⟨by decide, initFlags_excluded_unchanged _ _ _ _ (by decide)⟩

set_option maxRecDepth 100000 in
/-- C10: the error `initFlags` returns is the result of the last override it
attempted, nil when it attempted none; a failed override does not end the
visit and its error is lost when a later override succeeds.  On the flags of
the command, with `abc` for `port` and `foo` for `servername` in the
environment, the override of `port` fails, that of `servername` succeeds, and
`initFlags` returns nil. -/
theorem initFlags_err_last_override (flags : FlagSet) (exclude : String → Bool) (vp : Viper) :
    (initFlags flags exclude vp).err
        = ((overrideResults exclude
            { flags := flags, viper := (vp.BindPFlags flags).1, err := none }
            flags.VisitAll).getLast?).getD none
      ∧ overrideResults (fun _ => false)
            { flags := defaultCmd.Flags
              viper := ((envViper [("port", "abc"), ("servername", "foo")]).BindPFlags
                defaultCmd.Flags).1
              err := none }
            defaultCmd.Flags.VisitAll
          = [some (Error.invalidArgument "abc" "port" NumError.ErrSyntax), none]
      ∧ (initFlags defaultCmd.Flags (fun _ => false)
            (envViper [("port", "abc"), ("servername", "foo")])).err = none
      ∧ (FlagSet.Lookup (initFlags defaultCmd.Flags (fun _ => false)
            (envViper [("port", "abc"), ("servername", "foo")])).flags "port").map
              (fun f => f.Changed) = some false := by
  refine ⟨?_, by decide, by decide, by decide⟩
  unfold initFlags
  simp only [Viper.BindPFlags]
  exact foldl_visit_err exclude _ _

/-- C7: when the config flag cannot be read, `parseOptions` returns that error
with the empty Option Model, and `Immutc` returns the same error without
constructing the audit server, detaching, or creating or running the service. -/
theorem parseOptions_config_error {σ δ : Type} (w : Collaborators σ δ) (cmd : Command)
    (vp : Viper) (e : Error) (h : cmd.Flags.GetString "config" = .error e) :
    parseOptions cmd vp = { CfgFn := "", options := Options.empty, err := some e }
      ∧ Immutc w cmd vp = { trace := [], outcome := .returned (some e) } := by
  have hp : parseOptions cmd vp = { CfgFn := "", options := Options.empty, err := some e } := by
    unfold parseOptions
    rw [h]
  refine ⟨hp, ?_⟩
  unfold Immutc
  rw [hp]

/-- C7, at a concrete input: a command without a config flag. -/
theorem parseOptions_config_error_witness :
    FlagSet.GetString ({ Flags := [] } : Command).Flags "config"
        = .error (Error.notDefined "config")
      ∧ parseOptions { Flags := [] } emptyViper
          = { CfgFn := "", options := Options.empty, err := some (Error.notDefined "config") }
      ∧ Immutc okWorld { Flags := [] } emptyViper
          = { trace := [], outcome := .returned (some (Error.notDefined "config")) } :=
  ⟨rfl, parseOptions_config_error okWorld { Flags := [] } emptyViper _ rfl⟩

/-- C5: when the construction of the audit server fails, `Immutc` returns that
error; its only step is the one call of `tc.NewServer`: no detach step, no
creation and no run of the service, no second construction. -/
theorem Immutc_NewServer_error {σ δ : Type} (w : Collaborators σ δ) (cmd : Command)
    (vp : Viper) (e : Error) (hp : (parseOptions cmd vp).err = none)
    (hn : w.NewServer (parseOptions cmd vp).options = .error e) :
    Immutc w cmd vp
      = { trace := [.NewServer (parseOptions cmd vp).options], outcome := .returned (some e) } := by
  unfold Immutc
  rw [hp]
  simp only
  rw [hn]

set_option maxRecDepth 100000 in
/-- C5, at a concrete input: the command run detached against an audit server
that cannot be constructed. -/
theorem Immutc_NewServer_error_witness :
    (parseOptions (cmdWith [("detached", "true")]) (NewCmd emptyViper).viper).err = none
      ∧ (parseOptions (cmdWith [("detached", "true")]) (NewCmd emptyViper).viper).options.Detached
          = true
      ∧ Immutc failWorld (cmdWith [("detached", "true")]) (NewCmd emptyViper).viper
          = { trace := [.NewServer
                (parseOptions (cmdWith [("detached", "true")]) (NewCmd emptyViper).viper).options]
              outcome := .returned (some (Error.other "invalid remote address")) } :=
  ⟨by decide, by decide,
    Immutc_NewServer_error failWorld _ _ (Error.other "invalid remote address") (by decide) rfl⟩

set_option maxRecDepth 100000 in
/-- C4, as stated, fails: in a run with `--detached=true` whose collaborators
all succeed, the audit server is constructed (in the original foreground
context) before the detach step. -/
theorem Immutc_detached_counterexample :
    (parseOptions (cmdWith [("detached", "true")]) (NewCmd emptyViper).viper).options.Detached
        = true
      ∧ (Immutc okWorld (cmdWith [("detached", "true")]) (NewCmd emptyViper).viper).trace
          = [.NewServer
              (parseOptions (cmdWith [("detached", "true")]) (NewCmd emptyViper).viper).options,
            .Detached, .DaemNew "immutc" "immutc" "immutc", .Run]
      ∧ occursBefore Event.isNewServer Event.isDetached
          (Immutc okWorld (cmdWith [("detached", "true")]) (NewCmd emptyViper).viper).trace
          = true := by
  decide

/-- C4, amended: in a run whose resolved detached flag is true, the audit server
is constructed once, as the first step and so before the detach step; when the
construction fails nothing follows, and when it succeeds the detach step comes
next and the creation of the OS service after it.  No service is created
before the detach step and no audit server is constructed after it. -/
theorem Immutc_detached_order {σ δ : Type} (w : Collaborators σ δ) (cmd : Command)
    (vp : Viper) (hp : (parseOptions cmd vp).err = none)
    (hd : (parseOptions cmd vp).options.Detached = true) :
    ((∃ e, w.NewServer (parseOptions cmd vp).options = .error e
          ∧ (Immutc w cmd vp).trace = [.NewServer (parseOptions cmd vp).options])
        ∨ (∃ srv rest, w.NewServer (parseOptions cmd vp).options = .ok srv
          ∧ (Immutc w cmd vp).trace
              = .NewServer (parseOptions cmd vp).options :: .Detached
                  :: .DaemNew "immutc" "immutc" "immutc" :: rest
          ∧ rest.all (fun ev => !ev.isNewServer && !ev.isDetached && !ev.isDaemNew) = true))
      ∧ ((Immutc w cmd vp).trace.filter Event.isNewServer).length = 1
      ∧ occursBefore Event.isDaemNew Event.isDetached (Immutc w cmd vp).trace = false
      ∧ occursBefore Event.isDetached Event.isNewServer (Immutc w cmd vp).trace = false := by
  unfold Immutc
  rw [hp]
  simp only [hd, if_true]
  cases hn : w.NewServer (parseOptions cmd vp).options with
  | error e =>
    refine ⟨Or.inl ⟨e, rfl, rfl⟩, ?_, ?_, ?_⟩ <;>
      simp [occursBefore, Event.isNewServer, Event.isDetached, Event.isDaemNew]
  | ok srv =>
    simp only []
    cases hw : w.New "immutc" "immutc" "immutc" with
    | error e =>
      refine ⟨Or.inr ⟨srv, [.QuitToStdErr e], rfl, ?_, ?_⟩, ?_, ?_, ?_⟩ <;>
        simp [occursBefore, Event.isNewServer, Event.isDetached, Event.isDaemNew]
    | ok d =>
      simp only []
      cases hr : w.Run d srv with
      | error e =>
        refine ⟨Or.inr ⟨srv, [.Run], rfl, ?_, ?_⟩, ?_, ?_, ?_⟩ <;>
          simp [occursBefore, Event.isNewServer, Event.isDetached, Event.isDaemNew]
      | ok r =>
        refine ⟨Or.inr ⟨srv, [.Run], rfl, ?_, ?_⟩, ?_, ?_, ?_⟩ <;>
          simp [occursBefore, Event.isNewServer, Event.isDetached, Event.isDaemNew]

set_option maxRecDepth 100000 in
/-- C4, amended, at a concrete input: the command run with `--detached=true`
and collaborators that succeed. -/
theorem Immutc_detached_order_witness :
    (parseOptions (cmdWith [("detached", "true")]) (NewCmd emptyViper).viper).err = none
      ∧ (parseOptions (cmdWith [("detached", "true")]) (NewCmd emptyViper).viper).options.Detached
          = true
      ∧ ((Immutc okWorld (cmdWith [("detached", "true")])
            (NewCmd emptyViper).viper).trace.filter Event.isNewServer).length = 1
      ∧ occursBefore Event.isDaemNew Event.isDetached
          (Immutc okWorld (cmdWith [("detached", "true")]) (NewCmd emptyViper).viper).trace
          = false :=
  ⟨by decide, by decide,
    (Immutc_detached_order okWorld (cmdWith [("detached", "true")]) (NewCmd emptyViper).viper
      (by decide) (by decide)).2.1,
    (Immutc_detached_order okWorld (cmdWith [("detached", "true")]) (NewCmd emptyViper).viper
      (by decide) (by decide)).2.2.1⟩

/-- C3: with a readable config flag `parseOptions` returns no error, and every
field of the Option Model is the value of the store for its own key; with mtls
true the four fields of the mTLS sub-config are the values of their keys. -/
theorem parseOptions_fields (cmd : Command) (vp : Viper) (cfg : String)
    (h : cmd.Flags.GetString "config" = .ok cfg) :
    (parseOptions cmd vp).err = none
      ∧ (parseOptions cmd vp).CfgFn = cfg
      ∧ (parseOptions cmd vp).options.Port = vp.GetInt cmd.Flags "port"
      ∧ (parseOptions cmd vp).options.Address = vp.GetString cmd.Flags "address"
      ∧ (parseOptions cmd vp).options.ImmudbAddress = vp.GetString cmd.Flags "immudb-address"
      ∧ (parseOptions cmd vp).options.ImmudbPort = vp.GetInt cmd.Flags "immudb-port"
      ∧ (parseOptions cmd vp).options.Pidfile = vp.GetString cmd.Flags "pidfile"
      ∧ (parseOptions cmd vp).options.Logfile = vp.GetString cmd.Flags "logfile"
      ∧ (parseOptions cmd vp).options.MTLs = vp.GetBool cmd.Flags "mtls"
      ∧ (parseOptions cmd vp).options.Detached = vp.GetBool cmd.Flags "detached"
      ∧ (vp.GetBool cmd.Flags "mtls" = true →
          (parseOptions cmd vp).options.MTLsOptions
            = some
                { Servername := vp.GetString cmd.Flags "servername"
                  Certificate := vp.GetString cmd.Flags "certificate"
                  Pkey := vp.GetString cmd.Flags "pkey"
                  ClientCAs := vp.GetString cmd.Flags "clientcas" }) := by
  rw [parseOptions_ok cmd vp cfg h]
  refine ⟨rfl, rfl, rfl, rfl, rfl, rfl, rfl, rfl, rfl, rfl, fun hm => ?_⟩
  simp [hm]

set_option maxRecDepth 100000 in
/-- C3, at the scenario of the specification: the flags `--port=4000
--immudb-address=10.0.0.5 --mtls=true --servername=foo --certificate=/c
--pkey=/k --clientcas=/ca` on a store without environment or config file. -/
theorem parseOptions_fields_witness :
    FlagSet.GetString (cmdWith scenarioArgs).Flags "config" = .ok ""
      ∧ (parseOptions (cmdWith scenarioArgs) (NewCmd emptyViper).viper).err = none
      ∧ (parseOptions (cmdWith scenarioArgs) (NewCmd emptyViper).viper).options
          = { Address := "127.0.0.1", Port := 4000, ImmudbAddress := "10.0.0.5",
              ImmudbPort := 3322, Pidfile := "", Logfile := "", MTLs := true,
              Detached := false,
              MTLsOptions := some
                { Servername := "foo", Certificate := "/c", Pkey := "/k", ClientCAs := "/ca" } } :=
  ⟨rfl, (parseOptions_fields (cmdWith scenarioArgs) (NewCmd emptyViper).viper "" rfl).1,
    by decide⟩

/-- C2: on the flags of the command, whatever the command line and the state
of the configuration store, the options `parseOptions` returns carry the mTLS
sub-config exactly when the resolved mtls flag is true; it then holds the
resolved servername, certificate, pkey and clientcas, all four, and it is
absent when mtls is false. -/
theorem parseOptions_mtls_iff (exclude : String → Bool) (vp0 : Viper)
    (args : List (String × String)) (vp : Viper) :
    ((parseOptions
          { Flags := (FlagSet.ParseFlags (initFlags defaultCmd.Flags exclude vp0).flags args).1 }
          vp).options.MTLsOptions
        = some
            { Servername := vp.GetString
                (FlagSet.ParseFlags (initFlags defaultCmd.Flags exclude vp0).flags args).1
                "servername"
              Certificate := vp.GetString
                (FlagSet.ParseFlags (initFlags defaultCmd.Flags exclude vp0).flags args).1
                "certificate"
              Pkey := vp.GetString
                (FlagSet.ParseFlags (initFlags defaultCmd.Flags exclude vp0).flags args).1 "pkey"
              ClientCAs := vp.GetString
                (FlagSet.ParseFlags (initFlags defaultCmd.Flags exclude vp0).flags args).1
                "clientcas" }
        ↔ vp.GetBool
            (FlagSet.ParseFlags (initFlags defaultCmd.Flags exclude vp0).flags args).1 "mtls"
          = true)
      ∧ (vp.GetBool
            (FlagSet.ParseFlags (initFlags defaultCmd.Flags exclude vp0).flags args).1 "mtls"
          = false →
        (parseOptions
          { Flags := (FlagSet.ParseFlags (initFlags defaultCmd.Flags exclude vp0).flags args).1 }
          vp).options.MTLsOptions = none) := by
  have h0 : ∃ f, FlagSet.Lookup defaultCmd.Flags "config" = some f
      ∧ f.Value.ValueType = "string" := ⟨_, rfl, rfl⟩
  have h1 : ∃ f, FlagSet.Lookup (initFlags defaultCmd.Flags exclude vp0).flags "config" = some f
      ∧ f.Value.ValueType = "string" := by
    unfold initFlags
    simp only [Viper.BindPFlags]
    exact foldl_visit_readable exclude "config" _ _ h0
  obtain ⟨cfg, hcfg⟩ := (GetString_ok_iff _ _).mpr (ParseFlags_readable "config" args _ h1)
  rw [parseOptions_ok _ vp cfg hcfg]
  simp only
  cases hm : vp.GetBool
      (FlagSet.ParseFlags (initFlags defaultCmd.Flags exclude vp0).flags args).1 "mtls" <;>
    simp

/-- C9: a flag whose value in the configuration store, read as a string, is
its compiled-in default is not set by `initFlags`: after `initFlags` the flag
is as it was, with the same value and the same `Changed` mark. -/
theorem initFlags_default_untouched (flags : FlagSet) (exclude : String → Bool) (vp : Viper)
    (F : Flag) (hnd : (flags.map (fun f => f.Name)).Nodup) (hF : F ∈ flags)
    (hv : ((vp.BindPFlags flags).1.SetDefault F.Name (.str F.DefValue)).GetString flags F.Name
      = F.DefValue) :
    FlagSet.Lookup (initFlags flags exclude vp).flags F.Name = some F := by
  rw [← lookup_of_mem flags hnd F hF]
  unfold initFlags
  simp only [Viper.BindPFlags] at hv ⊢
  refine foldl_visit_keeps exclude F _ flags hv _ (fun g hg hn => ?_) _ rfl rfl rfl rfl
  exact List.inj_on_of_nodup_map hnd ((mem_VisitAll flags g).mp hg) hF hn

set_option maxRecDepth 100000 in
/-- C9, at a concrete input: the environment supplies the literal default 3325
for `port`; the flag stays at 3325 and is not marked as changed. -/
theorem initFlags_default_untouched_witness :
    (defaultCmd.Flags.map (fun f => f.Name)).Nodup
      ∧ portFlag ∈ defaultCmd.Flags
      ∧ FlagSet.Lookup
          (initFlags defaultCmd.Flags (fun _ => false) (envViper [("port", "3325")])).flags
          "port" = some portFlag :=
  ⟨by decide, by decide,
    initFlags_default_untouched defaultCmd.Flags (fun _ => false) (envViper [("port", "3325")])
      portFlag (by decide) (by decide) (by decide)⟩

set_option maxRecDepth 100000 in
/-- C8: with the flags `setupFlags` registers from the default options, no
command-line value and a store without environment and configuration file,
`initFlags` returns nil and `parseOptions` returns the default Option Model,
whose mTLS sub-config is absent. -/
theorem parseOptions_defaults (vp : Viper) (henv : ∀ k, vp.env k = none)
    (hcfg : ∀ k, vp.config k = none) :
    parseOptions { Flags := (NewCmd vp).flags } (NewCmd vp).viper
        = { CfgFn := "", options := tc.DefaultOptions, err := none }
      ∧ (parseOptions { Flags := (NewCmd vp).flags } (NewCmd vp).viper).options.MTLsOptions
          = none
      ∧ (NewCmd vp).err = none := by
  obtain ⟨hfl, herr, hfind⟩ := initFlags_no_override defaultCmd.Flags vp henv hcfg
    (by decide) (by decide)
  have hfl2 : (NewCmd vp).flags = defaultCmd.Flags := hfl
  have hf : ∀ k d, (∃ f ∈ defaultCmd.Flags, f.Name = k ∧ f.DefValue = d) →
      (NewCmd vp).viper.find defaultCmd.Flags k = some (.str d) := hfind
  have hmain : parseOptions { Flags := (NewCmd vp).flags } (NewCmd vp).viper
      = { CfgFn := "", options := tc.DefaultOptions, err := none } := by
    rw [hfl2]
    generalize (NewCmd vp).viper = V at hf
    rw [parseOptions_ok { Flags := defaultCmd.Flags } V "" rfl]
    simp only [Viper.GetInt, Viper.GetString, Viper.GetBool,
      hf "port" "3325" (by decide), hf "address" "127.0.0.1" (by decide),
      hf "immudb-port" "3322" (by decide), hf "immudb-address" "127.0.0.1" (by decide),
      hf "pidfile" "" (by decide), hf "logfile" "" (by decide), hf "mtls" "false" (by decide),
      hf "detached" "false" (by decide)]
    have hb : castToBool (Any.str "false") = false := by decide
    simp only [hb, Bool.false_eq_true, if_false]
    decide
  refine ⟨hmain, ?_, herr⟩
  rw [hmain]
  rfl

/-- C8, at a concrete input: the empty store. -/
theorem parseOptions_defaults_witness :
    (∀ k, emptyViper.env k = none) ∧ (∀ k, emptyViper.config k = none)
      ∧ parseOptions { Flags := (NewCmd emptyViper).flags } (NewCmd emptyViper).viper
        = { CfgFn := "", options := tc.DefaultOptions, err := none } :=
  ⟨fun _ => rfl, fun _ => rfl,
    (parseOptions_defaults emptyViper (fun _ => rfl) (fun _ => rfl)).1⟩

set_option maxRecDepth 100000 in
/-- C1, as stated, fails for an excluded flag that is not on the command line:
with `port` in the exclusion set, 4000 for `port` in the environment and an
empty command line, the flag `port` is as registered, at its default 3325 and
unchanged, yet the port of the resolved Option Model is 4000. -/
theorem resolution_excluded_counterexample :
    excludeOnly "port" "port" = true
      ∧ lastArg [] "port" = none
      ∧ FlagSet.Lookup
          (FlagSet.ParseFlags
            (initFlags defaultCmd.Flags (excludeOnly "port") (envViper [("port", "4000")])).flags
            []).1 "port" = some portFlag
      ∧ (parseOptions
          { Flags := (FlagSet.ParseFlags
              (initFlags defaultCmd.Flags (excludeOnly "port")
                (envViper [("port", "4000")])).flags []).1 }
          (initFlags defaultCmd.Flags (excludeOnly "port")
            (envViper [("port", "4000")])).viper).options.Port = 4000
      ∧ portFlag.Value = .intValue 3325 := by
  decide

/-- C1, amended: for a flag `F` of the command and a store whose environment
holds for the key of `F` a non-empty `V` different from the compiled-in default
`D`: `initFlags` writes `V` into the flag unless `F` is excluded (the flag is
marked as changed when `V` converts to its type), and after a successful parse
of the command line `parseOptions` returns no error and produces for `F` the
value of its last occurrence on the command line when there is one, and
otherwise `V`, converted to the type of `F`, whether or not `F` is excluded;
only for `config`, which `parseOptions` reads from the flag itself, an excluded
flag that is not on the command line gives `D`.  The value of an mTLS key is
written to the Option Model only when mtls resolves to true. -/
theorem resolution_env_or_cli (exclude : String → Bool) (vp : Viper) (F : Flag) (V : String)
    (args : List (String × String)) (hF : F ∈ defaultCmd.Flags)
    (henv : vp.env F.Name = some V) (hV0 : V ≠ "") (hVD : V ≠ F.DefValue)
    (hcli : (FlagSet.ParseFlags (initFlags defaultCmd.Flags exclude vp).flags args).2 = none) :
    FlagSet.Lookup (initFlags defaultCmd.Flags exclude vp).flags F.Name
        = some (if exclude F.Name = true then F
          else { F with
            Value := (F.Value.Set V).1
            Changed := if (F.Value.Set V).2 = none then true else false })
      ∧ (parseOptions
          { Flags := (FlagSet.ParseFlags (initFlags defaultCmd.Flags exclude vp).flags args).1 }
          (initFlags defaultCmd.Flags exclude vp).viper).err = none
      ∧ (parseOptions
          { Flags := (FlagSet.ParseFlags (initFlags defaultCmd.Flags exclude vp).flags args).1 }
          (initFlags defaultCmd.Flags exclude vp).viper).valueOf F.Name
        = if isMTLsKey F.Name = true
            ∧ (parseOptions
                { Flags :=
                    (FlagSet.ParseFlags (initFlags defaultCmd.Flags exclude vp).flags args).1 }
                (initFlags defaultCmd.Flags exclude vp).viper).options.MTLs = false then none
          else some (castAs F.Value (.str ((lastArg args F.Name).getD
            (if F.Name = "config" ∧ exclude F.Name = true then F.DefValue else V)))) := by
  have hnd : (defaultCmd.Flags.map (fun f => f.Name)).Nodup := by decide
  obtain ⟨hch, hvs, hkind⟩ := defaultCmd_flag F hF
  have hA := initFlags_env_flag defaultCmd.Flags exclude vp F V hnd hF hch henv hV0
  simp only [hVD, or_false] at hA
  obtain ⟨hflag, -⟩ := resolution_flag defaultCmd.Flags exclude vp F V args hnd hF hch henv
    hV0 hcli
  have hmain := GetAs_env_or_cli defaultCmd.Flags exclude vp F V args hnd hF hch henv hV0 hcli
  obtain ⟨cfg, hcfg⟩ := config_readable exclude vp args
  have hr := parseOptions_ok
    { Flags := (FlagSet.ParseFlags (initFlags defaultCmd.Flags exclude vp).flags args).1 }
    (initFlags defaultCmd.Flags exclude vp).viper cfg hcfg
  refine ⟨hA, by rw [hr], ?_⟩
  rcases hkind with ⟨hn, ht⟩ | ⟨hn, ht⟩ | ⟨hn, ht⟩ | ⟨hn, ht⟩ | ⟨hn, ht⟩ | ⟨hn, ht⟩ | ⟨hn, ht⟩
    | ⟨hn, ht⟩ | ⟨hn, ht⟩ | ⟨hn, ht⟩ | ⟨hn, ht⟩ | ⟨hn, ht⟩ | ⟨hn, ht⟩
  · obtain ⟨n, hval⟩ := ValueType_int F.Value ht
    rw [hn, hval] at hmain
    rw [hn, hval, hr]
    simpa [ParseResult.valueOf, isMTLsKey, Viper.GetAs, castAs] using hmain
  · obtain ⟨n, hval⟩ := ValueType_int F.Value ht
    rw [hn, hval] at hmain
    rw [hn, hval, hr]
    simpa [ParseResult.valueOf, isMTLsKey, Viper.GetAs, castAs] using hmain
  · obtain ⟨b, hval⟩ := ValueType_bool F.Value ht
    rw [hn, hval] at hmain
    rw [hn, hval, hr]
    simpa [ParseResult.valueOf, isMTLsKey, Viper.GetAs, castAs] using hmain
  · obtain ⟨b, hval⟩ := ValueType_bool F.Value ht
    rw [hn, hval] at hmain
    rw [hn, hval, hr]
    simpa [ParseResult.valueOf, isMTLsKey, Viper.GetAs, castAs] using hmain
  · obtain ⟨a, hval⟩ := ValueType_string F.Value ht
    rw [hn, hval] at hmain
    rw [hn, hval, hr]
    simpa [ParseResult.valueOf, isMTLsKey, Viper.GetAs, castAs, castToString] using hmain
  · obtain ⟨a, hval⟩ := ValueType_string F.Value ht
    rw [hn, hval] at hmain
    rw [hn, hval, hr]
    simpa [ParseResult.valueOf, isMTLsKey, Viper.GetAs, castAs, castToString] using hmain
  · obtain ⟨a, hval⟩ := ValueType_string F.Value ht
    rw [hn, hval] at hmain
    rw [hn, hval, hr]
    simpa [ParseResult.valueOf, isMTLsKey, Viper.GetAs, castAs, castToString] using hmain
  · obtain ⟨a, hval⟩ := ValueType_string F.Value ht
    rw [hn, hval] at hmain
    rw [hn, hval, hr]
    simpa [ParseResult.valueOf, isMTLsKey, Viper.GetAs, castAs, castToString] using hmain
  · obtain ⟨a, hval⟩ := ValueType_string F.Value ht
    rw [hn, hval] at hmain
    rw [hn, hval, hr]
    cases hm : (initFlags defaultCmd.Flags exclude vp).viper.GetBool
        (FlagSet.ParseFlags (initFlags defaultCmd.Flags exclude vp).flags args).1 "mtls"
    · simp [ParseResult.valueOf, isMTLsKey]
    · simpa [ParseResult.valueOf, isMTLsKey, Viper.GetAs, castAs, castToString] using hmain
  · obtain ⟨a, hval⟩ := ValueType_string F.Value ht
    rw [hn, hval] at hmain
    rw [hn, hval, hr]
    cases hm : (initFlags defaultCmd.Flags exclude vp).viper.GetBool
        (FlagSet.ParseFlags (initFlags defaultCmd.Flags exclude vp).flags args).1 "mtls"
    · simp [ParseResult.valueOf, isMTLsKey]
    · simpa [ParseResult.valueOf, isMTLsKey, Viper.GetAs, castAs, castToString] using hmain
  · obtain ⟨a, hval⟩ := ValueType_string F.Value ht
    rw [hn, hval] at hmain
    rw [hn, hval, hr]
    cases hm : (initFlags defaultCmd.Flags exclude vp).viper.GetBool
        (FlagSet.ParseFlags (initFlags defaultCmd.Flags exclude vp).flags args).1 "mtls"
    · simp [ParseResult.valueOf, isMTLsKey]
    · simpa [ParseResult.valueOf, isMTLsKey, Viper.GetAs, castAs, castToString] using hmain
  · obtain ⟨a, hval⟩ := ValueType_string F.Value ht
    rw [hn, hval] at hmain
    rw [hn, hval, hr]
    cases hm : (initFlags defaultCmd.Flags exclude vp).viper.GetBool
        (FlagSet.ParseFlags (initFlags defaultCmd.Flags exclude vp).flags args).1 "mtls"
    · simp [ParseResult.valueOf, isMTLsKey]
    · simpa [ParseResult.valueOf, isMTLsKey, Viper.GetAs, castAs, castToString] using hmain
  · obtain ⟨a, hval⟩ := ValueType_string F.Value ht
    have hdef : F.DefValue = a := by rw [← hvs, hval]; rfl
    rw [hn, hval] at hflag
    unfold FlagSet.GetString at hcfg
    rw [hflag] at hcfg
    rw [hn, hval, hr, hdef]
    cases hla : lastArg args "config" with
    | some W =>
      rw [hla] at hcfg
      simp only [FlagValue.Set, FlagValue.ValueType, FlagValue.ValueString, ne_eq,
        not_true_eq_false, if_false, Except.ok.injEq] at hcfg
      simp [ParseResult.valueOf, isMTLsKey, castAs, castToString, hcfg]
    | none =>
      rw [hla] at hcfg
      by_cases hx : exclude "config" = true
      · simp only [hx, true_or, if_true, hval, FlagValue.ValueType, FlagValue.ValueString, ne_eq,
          not_true_eq_false, if_false, Except.ok.injEq] at hcfg
        simp [ParseResult.valueOf, isMTLsKey, castAs, castToString, hcfg, hx]
      · have hVD2 : ¬ V = a := by rw [← hdef]; exact hVD
        simp only [hx, hVD2, hdef, or_self, if_false, FlagValue.Set, FlagValue.ValueType,
          FlagValue.ValueString, ne_eq, not_true_eq_false, Except.ok.injEq,
          Bool.false_eq_true] at hcfg
        simp [ParseResult.valueOf, isMTLsKey, castAs, castToString, hcfg, hx]
set_option maxRecDepth 100000 in
/-- C1, amended, at concrete inputs.  With 4000 for `port` in the environment,
`initFlags` writes 4000 into the flag and marks it; the resolved port is 4000
without `port` on the command line and 5000 with `--port=5000`.  With
`/etc/x.toml` for `config` in the environment and `config` excluded, the
resolved config file name is the default, the empty string. -/
theorem resolution_env_or_cli_witness :
    portFlag ∈ defaultCmd.Flags
      ∧ (envViper [("port", "4000")]).env "port" = some "4000"
      ∧ FlagSet.Lookup
          (initFlags defaultCmd.Flags (fun _ => false) (envViper [("port", "4000")])).flags
          "port" = some { portFlag with Value := .intValue 4000, Changed := true }
      ∧ (parseOptions
          { Flags := (FlagSet.ParseFlags
              (initFlags defaultCmd.Flags (fun _ => false) (envViper [("port", "4000")])).flags
              []).1 }
          (initFlags defaultCmd.Flags (fun _ => false)
            (envViper [("port", "4000")])).viper).valueOf "port" = some (.int 4000)
      ∧ (parseOptions
          { Flags := (FlagSet.ParseFlags
              (initFlags defaultCmd.Flags (fun _ => false) (envViper [("port", "4000")])).flags
              [("port", "5000")]).1 }
          (initFlags defaultCmd.Flags (fun _ => false)
            (envViper [("port", "4000")])).viper).valueOf "port" = some (.int 5000)
      ∧ (parseOptions
          { Flags := (FlagSet.ParseFlags
              (initFlags defaultCmd.Flags (excludeOnly "config")
                (envViper [("config", "/etc/x.toml")])).flags []).1 }
          (initFlags defaultCmd.Flags (excludeOnly "config")
            (envViper [("config", "/etc/x.toml")])).viper).valueOf "config" = some (.str "") :=
  ⟨by decide, by decide,
    (resolution_env_or_cli (fun _ => false) (envViper [("port", "4000")]) portFlag "4000" []
      (by decide) (by decide) (by decide) (by decide) (by decide)).1,
    (resolution_env_or_cli (fun _ => false) (envViper [("port", "4000")]) portFlag "4000" []
      (by decide) (by decide) (by decide) (by decide) (by decide)).2.2,
    (resolution_env_or_cli (fun _ => false) (envViper [("port", "4000")]) portFlag "4000"
      [("port", "5000")] (by decide) (by decide) (by decide) (by decide) (by decide)).2.2,
    (resolution_env_or_cli (excludeOnly "config") (envViper [("config", "/etc/x.toml")])
      configFlag "/etc/x.toml" [] (by decide) (by decide) (by decide) (by decide)
      (by decide)).2.2⟩

end immutc
